import Mathlib

/-!
Verification of the materialbin CMD codec.

Shallow embedding of the byte parsers and emitters in `src/src/lib.rs`,
`src/src/common.rs`, `src/src/pass.rs`, `src/src/sampler_definition.rs`,
`src/src/property_field.rs` and `src/src/bgfx_shader.rs`.

Modelling conventions:
  - a Rust byte is `Byte := Fin 256`; a buffer is `Bytes := List Byte`;
  - scroll's `TryFromCtx` impls become functions `Bytes → PResult (α × Nat)`:
    the parser receives the suffix slice it parses (scroll hands
    `&buffer[offset..]` to the inner parser) and returns the value and the
    number of bytes consumed;
  - the threaded `&mut usize` offset of the Rust code becomes the state of
    the `ParserM` monad; `gread` calls on nested productions become `pgread`;
  - all integers are little-endian, as in the source (scroll `LE`);
  - a Rust panic (unwrap on an `Err`, out-of-bounds slice indexing,
    arithmetic overflow under debug assertions) is modelled as the
    distinguished error `PErr.panicked`, so that "returns an error" and
    "panics" stay observably different;
  - `std::io::Write` sinks become pure emitters returning the written bytes.
-/

set_option maxHeartbeats 1000000
set_option linter.unusedVariables false

namespace Materialbin

/-- Bytes hold the values 0..255. -/
abbrev Byte := Fin 256

/-- A byte buffer. -/
abbrev Bytes := List Byte

/-- Parse-side errors: scroll-style errors (`short` for an out-of-bounds read,
`badInput` and `custom` mirroring `scroll::Error::BadInput` / `Custom`), plus
`panicked` marking a Rust panic reached during decoding. -/
inductive PErr where
  | short : PErr
  | badInput (size : Nat) (msg : String) : PErr
  | custom (msg : String) : PErr
  | panicked (msg : String) : PErr
deriving DecidableEq

/-- Write-side errors, mirroring `WriteError` in src/src/lib.rs:
`IntConvert` (a `try_into` failed), `IoError`, `Compat(String)`. -/
inductive WErr where
  | intConvert : WErr
  | ioErr : WErr
  | compat (msg : String) : WErr
deriving DecidableEq

deriving instance DecidableEq for Except

abbrev PResult (α : Type) := Except PErr α

/-- Result of an emitter: the bytes written, or a `WriteError`. -/
abbrev WResult := Except WErr Bytes

/-- A parser threading the buffer and the current offset, as the Rust code
threads `buffer` and `&mut offset`. -/
def ParserM (α : Type) : Type := Bytes → Nat → PResult (α × Nat)

instance : Monad ParserM where
  pure a := fun _ off => .ok (a, off)
  bind p f := fun buf off =>
    match p buf off with
    | .ok (a, off') => f a buf off'
    | .error e => .error e

/-- Run a parser from offset 0, as every `try_from_ctx` does on its slice. -/
def runP (p : ParserM α) (buf : Bytes) : PResult (α × Nat) := p buf 0

/-- Little-endian value of a byte string. -/
def leVal : Bytes → Nat
  | [] => 0
  | b :: bs => b.val + 256 * leVal bs

/-- Little-endian bytes (lowest first) of a value, `width` bytes wide.
Values that do not fit are truncated mod 2^(8*width), as the Rust integer
types do. -/
def leBytes : Nat → Nat → Bytes
  | 0, _ => []
  | w + 1, v => (⟨v % 256, Nat.mod_lt _ (by decide)⟩ : Byte) :: leBytes w (v / 256)

/-- Takes exactly `n` leading bytes, or fails. Structural equivalent of the
bounds check `n ≤ l.length` followed by `l.take n`. -/
def takeN : Nat → Bytes → Option Bytes
  | 0, _ => some []
  | _ + 1, [] => none
  | n + 1, b :: bs =>
    match takeN n bs with
    | some out => some (b :: out)
    | none => none

/-- Reads `width` bytes at `off` if they are in bounds (scroll checks
`offset + width <= buffer.len()`; `takeN` of the suffix checks the same
thing, since every width used by the codec is positive). -/
def takeExact (buf : Bytes) (off width : Nat) : Option Bytes :=
  takeN width (buf.drop off)

/-- Reads a `width`-byte little-endian unsigned integer; out-of-bounds reads
fail with `short`, as scroll's bounds check does. -/
def greadLE (width : Nat) : ParserM Nat := fun buf off =>
  match takeExact buf off width with
  | some bs => .ok (leVal bs, off + width)
  | none => .error .short

def greadU8 : ParserM Nat := greadLE 1
def greadU16 : ParserM Nat := greadLE 2
def greadU32 : ParserM Nat := greadLE 4
def greadU64 : ParserM Nat := greadLE 8

/-- Reads `n` raw bytes (scroll's `&[u8]` read with a length context);
out of bounds is an error, not a panic. -/
def greadBytes (n : Nat) : ParserM Bytes := fun buf off =>
  match takeExact buf off n with
  | some bs => .ok (bs, off + n)
  | none => .error .short

/-- Rust slice indexing `&buffer[off..off+n]`: out of bounds PANICS. -/
def sliceIndex (n : Nat) : ParserM Bytes := fun buf off =>
  match takeN n (buf.drop off) with
  | some bs => .ok (bs, off + n)
  | none => .error (.panicked "range end index out of range for slice")

/-- Calls a nested production on the suffix slice, then advances the offset
by the size it consumed — scroll's `gread` on a `TryFromCtx` type. -/
def pgread (sub : Bytes → PResult (α × Nat)) : ParserM α := fun buf off =>
  match sub (buf.drop off) with
  | .ok (v, sz) => .ok (v, off + sz)
  | .error e => .error e

/-- An early `return Err(..)` in the Rust code: fail (with access to the
current offset, which `scroll::Error::BadInput` records) unless `c` holds. -/
def pguard (c : Bool) (e : Nat → PErr) : ParserM Unit := fun _ off =>
  if c then .ok ((), off) else .error (e off)

/-- Unconditional failure carrying the current offset. -/
def pfailAt (e : Nat → PErr) : ParserM α := fun _ off => .error (e off)

/-- The bare `offset -= 4` of the pass-bitset peek. At the point it runs the
offset is 1, so the usize subtraction underflows: under debug assertions Rust
panics ("attempt to subtract with overflow"); in release builds it wraps to
2^64 - 3 and every subsequent read fails its bounds check. We model the
debug-build panic. -/
def rewind4 : ParserM Unit := fun _ off =>
  if off < 4 then .error (.panicked "attempt to subtract with overflow")
  else .ok ((), off - 4)

/-- The bare `offset += 1` skip in the pass-bitset peek. -/
def skip1 : ParserM Unit := fun _ off => .ok ((), off + 1)

/-- Validity of a byte string as UTF-8 (the check `str::from_utf8` performs
inside scroll's `&str` reads). -/
def utf8Cont (b : Byte) : Bool := 0x80 ≤ b.val && b.val ≤ 0xBF

def utf8Valid : Bytes → Bool
  | [] => true
  | b :: rest =>
    if b.val ≤ 0x7F then utf8Valid rest
    else if 0xC2 ≤ b.val && b.val ≤ 0xDF then
      match rest with
      | c :: rest₂ => utf8Cont c && utf8Valid rest₂
      | [] => false
    else if b.val = 0xE0 then
      match rest with
      | c :: d :: rest₂ =>
        (0xA0 ≤ c.val && c.val ≤ 0xBF) && utf8Cont d && utf8Valid rest₂
      | _ => false
    else if (0xE1 ≤ b.val && b.val ≤ 0xEC) || (0xEE ≤ b.val && b.val ≤ 0xEF) then
      match rest with
      | c :: d :: rest₂ => utf8Cont c && utf8Cont d && utf8Valid rest₂
      | _ => false
    else if b.val = 0xED then
      match rest with
      | c :: d :: rest₂ =>
        (0x80 ≤ c.val && c.val ≤ 0x9F) && utf8Cont d && utf8Valid rest₂
      | _ => false
    else if b.val = 0xF0 then
      match rest with
      | c :: d :: e :: rest₂ =>
        (0x90 ≤ c.val && c.val ≤ 0xBF) && utf8Cont d && utf8Cont e && utf8Valid rest₂
      | _ => false
    else if 0xF1 ≤ b.val && b.val ≤ 0xF3 then
      match rest with
      | c :: d :: e :: rest₂ =>
        utf8Cont c && utf8Cont d && utf8Cont e && utf8Valid rest₂
      | _ => false
    else if b.val = 0xF4 then
      match rest with
      | c :: d :: e :: rest₂ =>
        (0x80 ≤ c.val && c.val ≤ 0x8F) && utf8Cont d && utf8Cont e && utf8Valid rest₂
      | _ => false
    else false

/-- ASCII bytes of a Lean string literal (used only for ASCII constants such
as the banner and for error messages' neighbours; all constants in the format
are ASCII). -/
def asciiBytes (s : String) : Bytes :=
  s.data.map (fun c => (⟨c.toNat % 256, Nat.mod_lt _ (by decide)⟩ : Byte))

/-- Association-list insert with the replace-on-collision semantics of
`IndexMap::insert` (and of `HashMap::insert`): an existing key keeps its
position and gets the new value, a fresh key is appended.

The source's older revision (lib.rs) stores tables in `std::collections::
HashMap`, whose iteration order is unspecified; the newer module revision
(pass.rs) and the spec (§3, §9 "Ordered maps") mandate insertion order, so
the model uses an insertion-ordered association list throughout. -/
def insertAssoc [DecidableEq κ] (k : κ) (v : ν) : List (κ × ν) → List (κ × ν)
  | [] => [(k, v)]
  | (k₀, v₀) :: rest =>
    if k₀ = k then (k₀, v) :: rest else (k₀, v₀) :: insertAssoc k v rest

/-- Reading loop of the `for _ in 0..count` table parses: read a key, read a
value, insert. Element errors propagate (`?` in the source). -/
def table_loop [DecidableEq κ] (pk : ParserM κ) (pv : ParserM ν) :
    Nat → List (κ × ν) → ParserM (List (κ × ν))
  | 0, acc => pure acc
  | n + 1, acc => do
    let k ← pk
    let v ← pv
    table_loop pk pv n (insertAssoc k v acc)

/-- The shared primitive `read_bool` (src/src/common.rs and src/src/lib.rs,
identical definitions): one byte, any nonzero value is `true`. -/
def read_bool : ParserM Bool := do
  let b ← greadU8
  pure (b != 0)

/-- The shared primitive `read_string` (src/src/common.rs and src/src/lib.rs):
a u32 length followed by that many UTF-8 bytes. The model keeps the raw
bytes; scroll's `&str` read validates UTF-8, which we mirror. -/
def read_string : ParserM Bytes := do
  let len ← greadU32
  let s ← greadBytes len
  let _ ← pguard (utf8Valid s) (fun _ => .custom "invalid utf8")
  pure s

/-- The recurring optional-read idiom of the source (`let has = read_bool(..)?;
if has { x = Some(read(..)?) }`): a presence byte, then the payload when the
byte is nonzero. -/
def optional_read (p : ParserM α) : ParserM (Option α) := do
  let has ← read_bool
  if has then do
    let v ← p
    pure (Option.some v)
  else pure Option.none

/-- The schema-1.18.30 bitset peek shared by `Pass::try_from_ctx` in
src/src/lib.rs (lines 382-391) and src/src/pass.rs (lines 24-34): read ONE
byte (`gread_with::<u8>`), treat low-byte 15 as "bitset present", then
`offset -= 4` — which underflows, since the offset is 1 (see `rewind4`) —
then either re-read the string in place or skip one byte. -/
def bitset_peek_1_18_30 : ParserM Bytes := do
  let b ← greadU8
  let has_bitset := b == 15
  let _ ← rewind4
  if has_bitset then read_string
  else do
    let _ ← skip1
    pure ([] : Bytes)

/-- The shared emitter `write_string` (src/src/common.rs and src/src/lib.rs):
`len.try_into::<u32>()?` then the length-prefixed bytes. -/
def write_string (s : Bytes) : WResult :=
  if s.length < 2 ^ 32 then .ok (leBytes 4 s.length ++ s) else .error .intConvert

/-- The shared emitter `optional_write` (src/src/common.rs and src/src/lib.rs):
a presence byte — always exactly 0 or 1 — then the payload if present. -/
def optional_write (o : Option α) (f : α → WResult) : WResult :=
  match o with
  | some v => do
    let bs ← f v
    pure ((1 : Byte) :: bs)
  | none => pure [(0 : Byte)]

/-- Emitter-side `len.try_into::<u8>()`. -/
def u8_try_into (v : Nat) : Except WErr Nat :=
  if v < 2 ^ 8 then .ok v else .error .intConvert

/-- Emitter-side `len.try_into::<u16>()`. -/
def u16_try_into (v : Nat) : Except WErr Nat :=
  if v < 2 ^ 16 then .ok v else .error .intConvert

/-- Emitter-side `len.try_into::<u32>()`. -/
def u32_try_into (v : Nat) : Except WErr Nat :=
  if v < 2 ^ 32 then .ok v else .error .intConvert

/-- Emitter of a list of values, concatenating the written bytes in order. -/
def write_list (w : α → WResult) : List α → WResult
  | [] => pure []
  | a :: rest => do
    let b ← w a
    let bs ← write_list w rest
    pure (b ++ bs)

/-- Emitter of a table: for each entry, the key then the value. -/
def write_table (wk : κ → WResult) (wv : ν → WResult) : List (κ × ν) → WResult
  | [] => pure []
  | (k, v) :: rest => do
    let bk ← wk k
    let bv ← wv v
    let brest ← write_table wk wv rest
    pure (bk ++ bv ++ brest)

/-!
Embedding of src/src/lib.rs — the self-contained revision of the codec
(it declares no modules; its `CompiledMaterialDefinition` with all nested
productions is defined in this one file). Names follow the source.
-/

namespace Lib

/-- The `MinecraftVersion` enum of src/src/lib.rs (three schemas). -/
inductive MinecraftVersion where
  | V1_20_80
  | V1_19_60
  | V1_18_30
deriving DecidableEq

/-- The shared 64-bit magic constant `0xA11DA1A`. -/
def MAGIC : Nat := 0xA11DA1A

/-- The banner string checked right after the opening magic. -/
def BANNER : Materialbin.Bytes := asciiBytes "RenderDragon.CompiledMaterialDefinition"

inductive EncryptionVariant where
  | None
  | SimplePassphrase
  | KeyPair
deriving DecidableEq

/-- Tag parse of `EncryptionVariant` (src/src/lib.rs, lines 1127-1144):
a u32, `NONE`/`SMPL`/`KYPR`, anything else is an error. -/
def EncryptionVariant.try_from_ctx (buffer : Bytes) :
    PResult (EncryptionVariant × Nat) :=
  runP (do
    let encryption ← greadU32
    if encryption = 0x4E4F4E45 then pure EncryptionVariant.None
    else if encryption = 0x534D504C then pure EncryptionVariant.SimplePassphrase
    else if encryption = 0x4B595052 then pure EncryptionVariant.KeyPair
    else pfailAt (fun _ =>
      .custom ("Invalid EnctyptionVariant: " ++ toString encryption))) buffer

/-- Emit of `EncryptionVariant` (src/src/lib.rs, lines 1145-1158). -/
def EncryptionVariant.write : EncryptionVariant → Bytes
  | .None => leBytes 4 0x4E4F4E45
  | .SimplePassphrase => leBytes 4 0x534D504C
  | .KeyPair => leBytes 4 0x4B595052

inductive SamplerAccess where
  | None
  | Read
  | Write
  | ReadWrite
deriving DecidableEq

def SamplerAccess.try_from_ctx (buffer : Bytes) : PResult (SamplerAccess × Nat) :=
  match buffer.head? with
  | Option.none => .error .short
  | Option.some b =>
    match b.val with
    | 0 => .ok (.None, 1)
    | 1 => .ok (.Read, 1)
    | 2 => .ok (.Write, 1)
    | 3 => .ok (.ReadWrite, 1)
    | _ => .error (.custom "Sampler Access is not valid")

def SamplerAccess.as_u8 : SamplerAccess → Nat
  | .None => 0
  | .Read => 1
  | .Write => 2
  | .ReadWrite => 3

/-- The `SamplerType` of src/src/lib.rs: ten variants, no `SamplerCubeArray`
and no version shift (that belongs to src/src/sampler_definition.rs). -/
inductive SamplerType where
  | Type2D
  | Type2DArray
  | Type2DExternal
  | Type3D
  | TypeCube
  | TypeStructuredBuffer
  | TypeRawBuffer
  | TypeAccelerationStructure
  | Type2DShadow
  | Type2DArrayShadow
deriving DecidableEq

def SamplerType.try_from_ctx (buffer : Bytes) : PResult (SamplerType × Nat) :=
  match buffer.head? with
  | Option.none => .error .short
  | Option.some b =>
    match b.val with
    | 0 => .ok (.Type2D, 1)
    | 1 => .ok (.Type2DArray, 1)
    | 2 => .ok (.Type2DExternal, 1)
    | 3 => .ok (.Type3D, 1)
    | 4 => .ok (.TypeCube, 1)
    | 5 => .ok (.TypeStructuredBuffer, 1)
    | 6 => .ok (.TypeRawBuffer, 1)
    | 7 => .ok (.TypeAccelerationStructure, 1)
    | 8 => .ok (.Type2DShadow, 1)
    | 9 => .ok (.Type2DArrayShadow, 1)
    | v => .error (.custom ("Invalid sapmler_type: " ++ toString v))

def SamplerType.to_u8 : SamplerType → Nat
  | .Type2D => 0
  | .Type2DArray => 1
  | .Type2DExternal => 2
  | .Type3D => 3
  | .TypeCube => 4
  | .TypeStructuredBuffer => 5
  | .TypeRawBuffer => 6
  | .TypeAccelerationStructure => 7
  | .Type2DShadow => 8
  | .Type2DArrayShadow => 9

structure CustomTypeInfo where
  name : Bytes
  size : Nat
deriving DecidableEq

/-- Parse of `CustomTypeInfo` (src/src/lib.rs, lines 285-294): a
length-prefixed string and a u32. -/
def CustomTypeInfo.try_from_ctx (buffer : Bytes) : PResult (CustomTypeInfo × Nat) :=
  runP (do
    let name ← read_string
    let size ← greadU32
    pure { name := name, size := size : CustomTypeInfo }) buffer

def CustomTypeInfo.write (c : CustomTypeInfo) : WResult := do
  let b1 ← write_string c.name
  pure (b1 ++ leBytes 4 c.size)

structure SamplerDefinition where
  reg : Nat
  access : SamplerAccess
  precision : Nat
  allow_unordered_access : Nat
  sampler_type : SamplerType
  texture_format : Bytes
  unknown_int : Nat
  unknown_byte : Nat
  default_texture : Option Bytes
  unknown_string : Option Bytes
  custom_type_info : Option CustomTypeInfo
deriving DecidableEq

/-- Parse of `SamplerDefinition` (src/src/lib.rs, lines 195-252). Note that
the source first computes `unknown_byte` from `reg` via a fallible
`try_into` for every schema and only then overwrites it with a read byte on
non-1.18.30 schemas; we mirror that order. -/
def SamplerDefinition.try_from_ctx (ctx : MinecraftVersion) (buffer : Bytes) :
    PResult (SamplerDefinition × Nat) :=
  runP (do
    let reg_read := if ctx = MinecraftVersion.V1_18_30 then greadU8 else greadU16
    let reg ← reg_read
    let access ← pgread SamplerAccess.try_from_ctx
    let precision ← greadU8
    let allow_unordered_access ← greadU8
    let sampler_type ← pgread SamplerType.try_from_ctx
    let texture_format ← read_string
    let unknown_int ← greadU32
    let ub0_read :=
      if reg < 2 ^ 8 then pure reg
      else pfailAt (fun _ =>
        .custom "unknown byte parsing error: out of range integral type conversion attempted")
    let ub0 ← ub0_read
    let unknown_byte_read :=
      if ctx ≠ MinecraftVersion.V1_18_30 then greadU8 else pure ub0
    let unknown_byte ← unknown_byte_read
    let default_texture ← optional_read read_string
    let unknown_string_read :=
      if ctx = MinecraftVersion.V1_20_80 then optional_read read_string
      else pure Option.none
    let unknown_string ← unknown_string_read
    let custom_type_info ← optional_read (pgread CustomTypeInfo.try_from_ctx)
    pure { reg := reg, access := access, precision := precision,
           allow_unordered_access := allow_unordered_access,
           sampler_type := sampler_type, texture_format := texture_format,
           unknown_int := unknown_int, unknown_byte := unknown_byte,
           default_texture := default_texture, unknown_string := unknown_string,
           custom_type_info := custom_type_info : SamplerDefinition }) buffer

/-- Emit of `SamplerDefinition` (src/src/lib.rs, lines 253-279). -/
def SamplerDefinition.write (s : SamplerDefinition) (version : MinecraftVersion) :
    WResult := do
  let b1_write :=
    if version = MinecraftVersion.V1_18_30 then
      u8_try_into s.reg >>= fun r => pure (leBytes 1 r)
    else pure (leBytes 2 s.reg)
  let b1 ← b1_write
  let b2 := leBytes 1 s.access.as_u8 ++ leBytes 1 s.precision ++
    leBytes 1 s.allow_unordered_access ++ leBytes 1 s.sampler_type.to_u8
  let b3 ← write_string s.texture_format
  let b4 := leBytes 4 s.unknown_int
  let b5 := if version ≠ MinecraftVersion.V1_18_30 then leBytes 1 s.unknown_byte else []
  let b6 ← optional_write s.default_texture write_string
  let b7_write :=
    if version = MinecraftVersion.V1_20_80 then
      optional_write s.unknown_string write_string
    else pure []
  let b7 ← b7_write
  let b8 ← optional_write s.custom_type_info CustomTypeInfo.write
  pure (b1 ++ b2 ++ b3 ++ b4 ++ b5 ++ b6 ++ b7 ++ b8)

inductive PropertyType where
  | Vec4
  | Mat3
  | Mat4
  | External
deriving DecidableEq

/-- Parse of `PropertyType` (src/src/lib.rs, lines 1034-1052): a u16 tag
from 2,3,4,5. -/
def PropertyType.try_from_ctx (buffer : Bytes) : PResult (PropertyType × Nat) :=
  match takeExact buffer 0 2 with
  | Option.none => .error .short
  | Option.some bs =>
    match leVal bs with
    | 2 => .ok (.Vec4, 2)
    | 3 => .ok (.Mat3, 2)
    | 4 => .ok (.Mat4, 2)
    | 5 => .ok (.External, 2)
    | v => .error (.custom ("property type is invalid: " ++ toString v))

def PropertyType.to_u16 : PropertyType → Nat
  | .Vec4 => 2
  | .Mat3 => 3
  | .Mat4 => 4
  | .External => 5

structure PropertyField where
  field_type : PropertyType
  num : Nat
  vector_data : Option Bytes
  matrix_data : Option Bytes
deriving DecidableEq

/-- Parse of `PropertyField` (src/src/lib.rs, lines 932-972): type tag, then
the u32 `num` read UNCONDITIONALLY (also for `External`), then the has-data
byte, then a fixed-size payload selected by the type. The payload reads use
Rust slice indexing, which panics when out of bounds. -/
def PropertyField.payload_read (field_type : PropertyType) (has_data : Bool) :
    ParserM (Option Bytes × Option Bytes) :=
  if has_data then
    match field_type with
    | PropertyType.Vec4 => do
      let d ← sliceIndex 16
      pure (Option.some d, Option.none)
    | PropertyType.Mat3 => do
      let d ← sliceIndex 36
      pure (Option.none, Option.some d)
    | PropertyType.Mat4 => do
      let d ← sliceIndex 64
      pure (Option.none, Option.some d)
    | PropertyType.External => pure (Option.none, Option.none)
  else pure (Option.none, Option.none)

def PropertyField.try_from_ctx (buffer : Bytes) : PResult (PropertyField × Nat) :=
  runP (do
    let field_type ← pgread PropertyType.try_from_ctx
    let num ← greadU32
    let has_data ← read_bool
    let (vector_data, matrix_data) ← PropertyField.payload_read field_type has_data
    pure { field_type := field_type, num := num, vector_data := vector_data,
           matrix_data := matrix_data : PropertyField }) buffer

/-- Emit of `PropertyField` (src/src/lib.rs, lines 973-1005): type tag, then
`num` ONLY when the type is not `External`, then a has-data byte and the
payload — except for `External`, which emits nothing after the tag. -/
def PropertyField.write (f : PropertyField) : WResult := do
  let b1 := leBytes 2 f.field_type.to_u16
  let b2 := if f.field_type ≠ PropertyType.External then leBytes 4 f.num else []
  let b3 : Bytes :=
    match f.field_type with
    | PropertyType.Vec4 =>
      match f.vector_data with
      | Option.some d => (1 : Byte) :: d
      | Option.none => [(0 : Byte)]
    | PropertyType.Mat3 =>
      match f.matrix_data with
      | Option.some d => (1 : Byte) :: d
      | Option.none => [(0 : Byte)]
    | PropertyType.Mat4 =>
      match f.matrix_data with
      | Option.some d => (1 : Byte) :: d
      | Option.none => [(0 : Byte)]
    | PropertyType.External => []
  pure (b1 ++ b2 ++ b3)

inductive BlendMode where
  | None
  | Replace
  | AlphaBlend
  | ColorBlendAlphaAdd
  | PreMultiplied
  | InvertColor
  | Additive
  | AdditiveAlpha
  | Multiply
  | MultiplyBoth
  | InverseSrcAlpha
  | SrcAlpha
deriving DecidableEq

def BlendMode.try_from_ctx (buffer : Bytes) : PResult (BlendMode × Nat) :=
  match takeExact buffer 0 2 with
  | Option.none => .error .short
  | Option.some bs =>
    match leVal bs with
    | 0 => .ok (.None, 2)
    | 1 => .ok (.Replace, 2)
    | 2 => .ok (.AlphaBlend, 2)
    | 3 => .ok (.ColorBlendAlphaAdd, 2)
    | 4 => .ok (.PreMultiplied, 2)
    | 5 => .ok (.InvertColor, 2)
    | 6 => .ok (.Additive, 2)
    | 7 => .ok (.AdditiveAlpha, 2)
    | 8 => .ok (.Multiply, 2)
    | 9 => .ok (.MultiplyBoth, 2)
    | 10 => .ok (.InverseSrcAlpha, 2)
    | 11 => .ok (.SrcAlpha, 2)
    | v => .error (.custom ("Invalid blend_mode: " ++ toString v))

def BlendMode.as_u16 : BlendMode → Nat
  | .None => 0
  | .Replace => 1
  | .AlphaBlend => 2
  | .ColorBlendAlphaAdd => 3
  | .PreMultiplied => 4
  | .InvertColor => 5
  | .Additive => 6
  | .AdditiveAlpha => 7
  | .Multiply => 8
  | .MultiplyBoth => 9
  | .InverseSrcAlpha => 10
  | .SrcAlpha => 11

/-- The `ShaderStage` of src/src/lib.rs: three variants (the pass.rs
revision adds a fourth, `Unknown`). -/
inductive ShaderStage where
  | Vertex
  | Fragment
  | Compute
deriving DecidableEq

def ShaderStage.try_from_ctx (buffer : Bytes) : PResult (ShaderStage × Nat) :=
  match buffer.head? with
  | Option.none => .error .short
  | Option.some b =>
    match b.val with
    | 0 => .ok (.Vertex, 1)
    | 1 => .ok (.Fragment, 1)
    | 2 => .ok (.Compute, 1)
    | v => .error (.custom ("Invalid ShaderStage: " ++ toString v))

def ShaderStage.as_u8 : ShaderStage → Nat
  | .Vertex => 0
  | .Fragment => 1
  | .Compute => 2

inductive ShaderCodePlatform where
  | Direct3DSm40
  | Direct3DSm50
  | Direct3DSm60
  | Direct3DSm65
  | Direct3DXB1
  | Direct3DXBX
  | Glsl120
  | Glsl430
  | Essl100
  | Essl300
  | Essl310
  | Metal
  | Vulkan
  | Nvn
  | Pssl
deriving DecidableEq

def ShaderCodePlatform.try_from_ctx (buffer : Bytes) :
    PResult (ShaderCodePlatform × Nat) :=
  match buffer.head? with
  | Option.none => .error .short
  | Option.some b =>
    match b.val with
    | 0 => .ok (.Direct3DSm40, 1)
    | 1 => .ok (.Direct3DSm50, 1)
    | 2 => .ok (.Direct3DSm60, 1)
    | 3 => .ok (.Direct3DSm65, 1)
    | 4 => .ok (.Direct3DXB1, 1)
    | 5 => .ok (.Direct3DXBX, 1)
    | 6 => .ok (.Glsl120, 1)
    | 7 => .ok (.Glsl430, 1)
    | 8 => .ok (.Essl100, 1)
    | 9 => .ok (.Essl300, 1)
    | 10 => .ok (.Essl310, 1)
    | 11 => .ok (.Metal, 1)
    | 12 => .ok (.Vulkan, 1)
    | 13 => .ok (.Nvn, 1)
    | 14 => .ok (.Pssl, 1)
    | _ => .error (.custom "Invalid ShaderCodePlatform")

def ShaderCodePlatform.as_u8 : ShaderCodePlatform → Nat
  | .Direct3DSm40 => 0
  | .Direct3DSm50 => 1
  | .Direct3DSm60 => 2
  | .Direct3DSm65 => 3
  | .Direct3DXB1 => 4
  | .Direct3DXBX => 5
  | .Glsl120 => 6
  | .Glsl430 => 7
  | .Essl100 => 8
  | .Essl300 => 9
  | .Essl310 => 10
  | .Metal => 11
  | .Vulkan => 12
  | .Nvn => 13
  | .Pssl => 14

inductive ShaderInputType where
  | Float
  | Vec2
  | Vec3
  | Vec4
  | Int
  | Int2
  | Int3
  | Int4
  | UInt
  | UInt2
  | UInt3
  | UInt4
  | Mat4
deriving DecidableEq

def ShaderInputType.try_from_ctx (buffer : Bytes) : PResult (ShaderInputType × Nat) :=
  match buffer.head? with
  | Option.none => .error .short
  | Option.some b =>
    match b.val with
    | 0 => .ok (.Float, 1)
    | 1 => .ok (.Vec2, 1)
    | 2 => .ok (.Vec3, 1)
    | 3 => .ok (.Vec4, 1)
    | 4 => .ok (.Int, 1)
    | 5 => .ok (.Int2, 1)
    | 6 => .ok (.Int3, 1)
    | 7 => .ok (.Int4, 1)
    | 8 => .ok (.UInt, 1)
    | 9 => .ok (.UInt2, 1)
    | 10 => .ok (.UInt3, 1)
    | 11 => .ok (.UInt4, 1)
    | 12 => .ok (.Mat4, 1)
    | _ => .error (.custom "Invalid ShaderInputType")

def ShaderInputType.as_u8 : ShaderInputType → Nat
  | .Float => 0
  | .Vec2 => 1
  | .Vec3 => 2
  | .Vec4 => 3
  | .Int => 4
  | .Int2 => 5
  | .Int3 => 6
  | .Int4 => 7
  | .UInt => 8
  | .UInt2 => 9
  | .UInt3 => 10
  | .UInt4 => 11
  | .Mat4 => 12

inductive PrecisionConstraint where
  | Low
  | Medium
  | High
deriving DecidableEq

def PrecisionConstraint.try_from_ctx (buffer : Bytes) :
    PResult (PrecisionConstraint × Nat) :=
  match buffer.head? with
  | Option.none => .error .short
  | Option.some b =>
    match b.val with
    | 0 => .ok (.Low, 1)
    | 1 => .ok (.Medium, 1)
    | 2 => .ok (.High, 1)
    | v => .error (.custom ("Invalid PrecisionConstraint: " ++ toString v))

def PrecisionConstraint.as_u8 : PrecisionConstraint → Nat
  | .Low => 0
  | .Medium => 1
  | .High => 2

inductive InterpolationConstraint where
  | Flat
  | Smooth
  | NoPerspective
  | Centroid
deriving DecidableEq

def InterpolationConstraint.try_from_ctx (buffer : Bytes) :
    PResult (InterpolationConstraint × Nat) :=
  match buffer.head? with
  | Option.none => .error .short
  | Option.some b =>
    match b.val with
    | 0 => .ok (.Flat, 1)
    | 1 => .ok (.Smooth, 1)
    | 2 => .ok (.NoPerspective, 1)
    | 3 => .ok (.Centroid, 1)
    | v => .error (.custom ("Invalid InterpolationConstraint: " ++ toString v))

def InterpolationConstraint.as_u8 : InterpolationConstraint → Nat
  | .Flat => 0
  | .Smooth => 1
  | .NoPerspective => 2
  | .Centroid => 3

inductive Attribute where
  | Position
  | Normal
  | Tangent
  | Bitangent
  | Color0
  | Color1
  | Color2
  | Color3
  | Indices
  | Weights
  | TexCoord0
  | TexCoord1
  | TexCoord2
  | TexCoord3
  | TexCoord4
  | TexCoord5
  | TexCoord6
  | TexCoord7
  | TexCoord8
  | FrontFacing
deriving DecidableEq

/-- The error every unlisted index/subindex pair produces. -/
def Attribute.bad_tuple (a b : Nat) : PResult (Attribute × Nat) :=
  .error (.custom ("Attribute tuple[(" ++ toString a ++ ", " ++
    toString b ++ ")] is invalid"))

/-- Parse of `Attribute` (src/src/lib.rs, lines 861-896): two bytes, matched
as a pair against the closed table (the Rust tuple match is rendered as a
match on the first byte with a nested match on the second — the same
function pointwise). -/
def Attribute.try_from_ctx (buffer : Bytes) : PResult (Attribute × Nat) :=
  match buffer.get? 0 with
  | Option.none => .error .short
  | Option.some i =>
    match buffer.get? 1 with
    | Option.none => .error .short
    | Option.some s =>
      match i.val with
      | 0 =>
        match s.val with
        | 0 => .ok (.Position, 2)
        | b => Attribute.bad_tuple 0 b
      | 1 =>
        match s.val with
        | 0 => .ok (.Normal, 2)
        | b => Attribute.bad_tuple 1 b
      | 2 =>
        match s.val with
        | 0 => .ok (.Tangent, 2)
        | b => Attribute.bad_tuple 2 b
      | 3 =>
        match s.val with
        | 0 => .ok (.Bitangent, 2)
        | b => Attribute.bad_tuple 3 b
      | 4 =>
        match s.val with
        | 0 => .ok (.Color0, 2)
        | 1 => .ok (.Color1, 2)
        | 2 => .ok (.Color2, 2)
        | 3 => .ok (.Color3, 2)
        | b => Attribute.bad_tuple 4 b
      | 5 =>
        match s.val with
        | 0 => .ok (.Indices, 2)
        | b => Attribute.bad_tuple 5 b
      | 6 =>
        match s.val with
        | 0 => .ok (.Weights, 2)
        | b => Attribute.bad_tuple 6 b
      | 7 =>
        match s.val with
        | 0 => .ok (.TexCoord0, 2)
        | 1 => .ok (.TexCoord1, 2)
        | 2 => .ok (.TexCoord2, 2)
        | 3 => .ok (.TexCoord3, 2)
        | 4 => .ok (.TexCoord4, 2)
        | 5 => .ok (.TexCoord5, 2)
        | 6 => .ok (.TexCoord6, 2)
        | 7 => .ok (.TexCoord7, 2)
        | 8 => .ok (.TexCoord8, 2)
        | b => Attribute.bad_tuple 7 b
      | 9 =>
        match s.val with
        | 0 => .ok (.FrontFacing, 2)
        | b => Attribute.bad_tuple 9 b
      | a => Attribute.bad_tuple a s.val

def Attribute.to_tuple : Attribute → Nat × Nat
  | .Position => (0, 0)
  | .Normal => (1, 0)
  | .Tangent => (2, 0)
  | .Bitangent => (3, 0)
  | .Color0 => (4, 0)
  | .Color1 => (4, 1)
  | .Color2 => (4, 2)
  | .Color3 => (4, 3)
  | .Indices => (5, 0)
  | .Weights => (6, 0)
  | .TexCoord0 => (7, 0)
  | .TexCoord1 => (7, 1)
  | .TexCoord2 => (7, 2)
  | .TexCoord3 => (7, 3)
  | .TexCoord4 => (7, 4)
  | .TexCoord5 => (7, 5)
  | .TexCoord6 => (7, 6)
  | .TexCoord7 => (7, 7)
  | .TexCoord8 => (7, 8)
  | .FrontFacing => (9, 0)

structure ShaderInput where
  input_type : ShaderInputType
  attrib : Attribute
  is_per_instance : Bool
  precision_constraint : Option PrecisionConstraint
  interpolation_constraint : Option InterpolationConstraint
deriving DecidableEq

/-- Parse of `ShaderInput` (src/src/lib.rs, lines 640-668). -/
def ShaderInput.try_from_ctx (buffer : Bytes) : PResult (ShaderInput × Nat) :=
  runP (do
    let input_type ← pgread ShaderInputType.try_from_ctx
    let attrib ← pgread Attribute.try_from_ctx
    let is_per_instance ← read_bool
    let precision_constraint ← optional_read (pgread PrecisionConstraint.try_from_ctx)
    let interpolation_constraint ←
      optional_read (pgread InterpolationConstraint.try_from_ctx)
    pure { input_type := input_type, attrib := attrib,
           is_per_instance := is_per_instance,
           precision_constraint := precision_constraint,
           interpolation_constraint := interpolation_constraint : ShaderInput }) buffer

/-- Emit of `ShaderInput` (src/src/lib.rs, lines 685-703). -/
def ShaderInput.write (s : ShaderInput) : WResult := do
  let (index, subindex) := s.attrib.to_tuple
  let b1 := leBytes 1 s.input_type.as_u8 ++ leBytes 1 index ++ leBytes 1 subindex ++
    leBytes 1 (if s.is_per_instance then 1 else 0)
  let b2 ← optional_write s.precision_constraint
    (fun c => pure (leBytes 1 c.as_u8))
  let b3 ← optional_write s.interpolation_constraint
    (fun c => pure (leBytes 1 c.as_u8))
  pure (b1 ++ b2 ++ b3)

structure PlatformShaderStage where
  stage_name : Bytes
  platform_name : Bytes
  stage : ShaderStage
  platform : ShaderCodePlatform
deriving DecidableEq

/-- Parse of `PlatformShaderStage` (src/src/lib.rs, lines 711-730). This
revision propagates errors with `?` (the pass.rs revision unwraps). -/
def PlatformShaderStage.try_from_ctx (buffer : Bytes) :
    PResult (PlatformShaderStage × Nat) :=
  runP (do
    let stage_name ← read_string
    let platform_name ← read_string
    let stage ← pgread ShaderStage.try_from_ctx
    let platform ← pgread ShaderCodePlatform.try_from_ctx
    pure { stage_name := stage_name, platform_name := platform_name,
           stage := stage, platform := platform : PlatformShaderStage }) buffer

/-- Emit of `PlatformShaderStage` (src/src/lib.rs, lines 731-742). -/
def PlatformShaderStage.write (p : PlatformShaderStage) : WResult := do
  let b1 ← write_string p.stage_name
  let b2 ← write_string p.platform_name
  pure (b1 ++ b2 ++ leBytes 1 p.stage.as_u8 ++ leBytes 1 p.platform.as_u8)

structure ShaderCode where
  shader_inputs : List (Bytes × ShaderInput)
  source_hash : Nat
  bgfx_shader_data : Bytes
deriving DecidableEq

/-- Parse of `ShaderCode` (src/src/lib.rs, lines 519-545). The input table
loop propagates element errors with `?`; the payload read
`&buffer[offset..offset + bsd_len]` is panicking slice indexing. -/
def ShaderCode.try_from_ctx (buffer : Bytes) : PResult (ShaderCode × Nat) :=
  runP (do
    let input_count ← greadU16
    let shader_inputs ← table_loop read_string (pgread ShaderInput.try_from_ctx)
      input_count []
    let source_hash ← greadU64
    let bsd_len ← greadU32
    let bgfx_shader_data ← sliceIndex bsd_len
    pure { shader_inputs := shader_inputs, source_hash := source_hash,
           bgfx_shader_data := bgfx_shader_data : ShaderCode }) buffer

/-- Emit of `ShaderCode` (src/src/lib.rs, lines 546-563). -/
def ShaderCode.write (c : ShaderCode) : WResult := do
  let len ← u16_try_into c.shader_inputs.length
  let b1 ← write_table write_string ShaderInput.write c.shader_inputs
  let dlen ← u32_try_into c.bgfx_shader_data.length
  pure (leBytes 2 len ++ b1 ++ leBytes 8 c.source_hash ++ leBytes 4 dlen ++
    c.bgfx_shader_data)

structure Variant where
  is_supported : Bool
  flags : List (Bytes × Bytes)
  shader_codes : List (PlatformShaderStage × ShaderCode)
deriving DecidableEq

/-- Parse of `Variant` (src/src/lib.rs, lines 461-490): the wire order is
is-supported, flag count, shader-code count, flags, shader codes. -/
def Variant.try_from_ctx (buffer : Bytes) : PResult (Variant × Nat) :=
  runP (do
    let is_supported ← read_bool
    let flag_count ← greadU16
    let shader_code_count ← greadU16
    let flags ← table_loop read_string read_string flag_count []
    let shader_codes ← table_loop (pgread PlatformShaderStage.try_from_ctx)
      (pgread ShaderCode.try_from_ctx) shader_code_count []
    pure { is_supported := is_supported, flags := flags,
           shader_codes := shader_codes : Variant }) buffer

/-- Emit of `Variant` (src/src/lib.rs, lines 491-512). -/
def Variant.write (v : Variant) : WResult := do
  let b0 := leBytes 1 (if v.is_supported then 1 else 0)
  let fl ← u16_try_into v.flags.length
  let sl ← u16_try_into v.shader_codes.length
  let bf ← write_table write_string write_string v.flags
  let bs ← write_table PlatformShaderStage.write ShaderCode.write v.shader_codes
  pure (b0 ++ leBytes 2 fl ++ leBytes 2 sl ++ bf ++ bs)

/-- The `(0..variant_count).flat_map(|_| buffer.gread(&mut offset)).collect()`
loop of `Pass::try_from_ctx`: an element whose parse fails is silently
dropped and the offset is left where it was; the loop then retries the
remaining iterations from that same offset. -/
def variant_loop : Nat → ParserM (List Variant)
  | 0 => pure []
  | n + 1 => fun buf off =>
    match Variant.try_from_ctx (buf.drop off) with
    | .ok (v, sz) =>
      match variant_loop n buf (off + sz) with
      | .ok (vs, off') => .ok (v :: vs, off')
      | .error e => .error e
    | .error _ => variant_loop n buf off

structure Pass where
  bitset : Bytes
  fallback : Bytes
  default_blendmode : Option BlendMode
  default_flag_values : List (Bytes × Bytes)
  variants : List Variant
deriving DecidableEq

/-- Parse of `Pass` (src/src/lib.rs, lines 377-424). On schema 1.18.30 the
source reads ONE byte (`gread_with::<u8>`), compares it to 15, then does
`offset -= 4` — with the offset at 1, so the "rewind" underflows (see
`rewind4`). On other schemas the bitset is an ordinary string. -/
def Pass.try_from_ctx (ctx : MinecraftVersion) (buffer : Bytes) :
    PResult (Pass × Nat) :=
  runP (do
    let bitset_read :=
      if ctx = MinecraftVersion.V1_18_30 then bitset_peek_1_18_30
      else read_string
    let bitset ← bitset_read
    let fallback ← read_string
    let default_blendmode ← optional_read (pgread BlendMode.try_from_ctx)
    let flag_dvalue_count ← greadU16
    let default_flag_values ← table_loop read_string read_string
      flag_dvalue_count []
    let variant_count ← greadU16
    let variants ← variant_loop variant_count
    pure { bitset := bitset, fallback := fallback,
           default_blendmode := default_blendmode,
           default_flag_values := default_flag_values,
           variants := variants : Pass }) buffer

/-- Emit of `Pass` (src/src/lib.rs, lines 425-454): an empty bitset is
refused with a `Compat` error before anything is written; the source's
following `else if version == V1_18_30` branch has an empty body and does
nothing. -/
def Pass.write (p : Pass) (version : MinecraftVersion) : WResult :=
  if p.bitset.isEmpty then
    .error (.compat "Bitset string is empty, Try fixing it in the main struct")
  else do
    let b1 ← write_string p.bitset
    let b2 ← write_string p.fallback
    let b3 ← optional_write p.default_blendmode
      (fun m => pure (leBytes 2 m.as_u16))
    let fl ← u16_try_into p.default_flag_values.length
    let b4 ← write_table write_string write_string p.default_flag_values
    let vl ← u16_try_into p.variants.length
    let b5 ← write_list Variant.write p.variants
    pure (b1 ++ b2 ++ b3 ++ leBytes 2 fl ++ b4 ++ leBytes 2 vl ++ b5)

structure CompiledMaterialDefinition where
  version : Nat
  encryption_variant : EncryptionVariant
  name : Bytes
  parent_name : Option Bytes
  sampler_definitions : List (Bytes × SamplerDefinition)
  property_fields : List (Bytes × PropertyField)
  passes : List (Bytes × Pass)
deriving DecidableEq

/-- Parse of `CompiledMaterialDefinition` (src/src/lib.rs, lines 44-114):
opening magic, banner, version, encryption tag (anything but `NONE` is
refused with "Not decrypting encrypted material"), name, optional parent,
the sampler/property/pass tables, and a final u64 that the source binds as
`end` and never compares to anything. -/
def CompiledMaterialDefinition.try_from_ctx (ctx : MinecraftVersion)
    (buffer : Bytes) : PResult (CompiledMaterialDefinition × Nat) :=
  runP (do
    let magic ← greadU64
    let _ ← pguard (magic == MAGIC) (fun off => .badInput off "Invalid magic")
    let banner ← read_string
    let _ ← pguard (banner == BANNER) (fun off => .badInput off "Invalid definition")
    let version ← greadU64
    let encryption_variant ← pgread EncryptionVariant.try_from_ctx
    let _ ← pguard (encryption_variant == EncryptionVariant.None)
      (fun off => .badInput off "Not decrypting encrypted material")
    let name ← read_string
    let parent_name ← optional_read read_string
    let sampler_definition_count ← greadU8
    let sampler_definitions ← table_loop read_string
      (pgread (SamplerDefinition.try_from_ctx ctx)) sampler_definition_count []
    let property_field_count ← greadU16
    let property_fields ← table_loop read_string
      (pgread PropertyField.try_from_ctx) property_field_count []
    let pass_count ← greadU16
    let passes ← table_loop read_string (pgread (Pass.try_from_ctx ctx))
      pass_count []
    let _ ← greadU64
    pure { version := version, encryption_variant := encryption_variant,
           name := name, parent_name := parent_name,
           sampler_definitions := sampler_definitions,
           property_fields := property_fields,
           passes := passes : CompiledMaterialDefinition }) buffer

/-- Emit of `CompiledMaterialDefinition` (src/src/lib.rs, lines 115-148). -/
def CompiledMaterialDefinition.write (m : CompiledMaterialDefinition)
    (version : MinecraftVersion) : WResult := do
  let b1 := leBytes 8 MAGIC
  let b2 ← write_string BANNER
  let b3 := leBytes 8 m.version
  let b4 := m.encryption_variant.write
  let b5 ← write_string m.name
  let b6 ← optional_write m.parent_name write_string
  let sl ← u8_try_into m.sampler_definitions.length
  let b7 ← write_table write_string (fun s => SamplerDefinition.write s version)
    m.sampler_definitions
  let pl ← u16_try_into m.property_fields.length
  let b8 ← write_table write_string PropertyField.write m.property_fields
  let al ← u16_try_into m.passes.length
  let b9 ← write_table write_string (fun p => Pass.write p version) m.passes
  pure (b1 ++ b2 ++ b3 ++ b4 ++ b5 ++ b6 ++ leBytes 1 sl ++ b7 ++
    leBytes 2 pl ++ b8 ++ leBytes 2 al ++ b9 ++ leBytes 8 MAGIC)

end Lib

/-!
Embedding of the module-file revision: src/src/pass.rs,
src/src/sampler_definition.rs and src/src/bgfx_shader.rs (src/src/common.rs
primitives are shared above; src/src/property_field.rs is byte-for-byte the
same logic as the `PropertyField` of lib.rs embedded above — `to_vec` versus
a borrowed slice is immaterial in the model — so `Lib.PropertyField` serves
for both files).

pass.rs declares copies of `BlendMode`, `ShaderCodePlatform`,
`ShaderInputType`, `PrecisionConstraint`, `InterpolationConstraint`,
`Attribute` and `ShaderInput` that are identical to the lib.rs ones, and a
`ShaderCode` that differs only by owning its data; those shared embeddings
from `Lib` are reused. What differs and is embedded afresh here:
`ShaderStage` (a fourth `Unknown` variant), `PlatformShaderStage` (its parse
calls `.unwrap()` on every read — a panic on malformed input), and the
structures containing them.
-/

namespace Mod

/-- Schema identifiers for the module revision. The lib.rs revision kept in
src/ declares only `V1_20_80`, `V1_19_60`, `V1_18_30`; the module files
(sampler_definition.rs, cffi.rs) additionally reference `V1_21_20` and the
crate's full version list. Modelled from the spec: the spec's schema list
`1.18.30 < 1.19.60 < 1.20.80 < 1.21.20 < 1.21.110 < 26.0.24` (§6) supplies
the variants missing from the lib.rs enum. -/
inductive MinecraftVersion where
  | V1_18_30
  | V1_19_60
  | V1_20_80
  | V1_21_20
  | V1_21_110
  | V26_0_24
deriving DecidableEq

/-- The `SamplerType` of src/src/sampler_definition.rs: eleven variants with
`TypeSamplerCubeArray` inserted at ordinal 5. -/
inductive SamplerType where
  | Type2D
  | Type2DArray
  | Type2DExternal
  | Type3D
  | TypeCube
  | TypeSamplerCubeArray
  | TypeStructuredBuffer
  | TypeRawBuffer
  | TypeAccelerationStructure
  | Type2DShadow
  | Type2DArrayShadow
deriving DecidableEq

/-- The Rust `self as u8` cast: the declaration ordinal. -/
def SamplerType.ordinal : SamplerType → Nat
  | .Type2D => 0
  | .Type2DArray => 1
  | .Type2DExternal => 2
  | .Type3D => 3
  | .TypeCube => 4
  | .TypeSamplerCubeArray => 5
  | .TypeStructuredBuffer => 6
  | .TypeRawBuffer => 7
  | .TypeAccelerationStructure => 8
  | .Type2DShadow => 9
  | .Type2DArrayShadow => 10

/-- Parse of `SamplerType` (src/src/sampler_definition.rs, lines 167-200):
read one byte; on any schema other than 1.21.20 a value ≥ 5 is incremented
before the table lookup (the `+ 1` is a u8 add, so 255 wraps to 0 in release
builds — debug builds would panic; no claim exercises that corner). -/
def SamplerType.try_from_ctx (version : MinecraftVersion) (buffer : Bytes) :
    PResult (SamplerType × Nat) :=
  match buffer.head? with
  | Option.none => .error .short
  | Option.some b =>
    let sampler_type :=
      if version ≠ MinecraftVersion.V1_21_20 ∧ 5 ≤ b.val
      then (b.val + 1) % 256 else b.val
    match sampler_type with
    | 0 => .ok (.Type2D, 1)
    | 1 => .ok (.Type2DArray, 1)
    | 2 => .ok (.Type2DExternal, 1)
    | 3 => .ok (.Type3D, 1)
    | 4 => .ok (.TypeCube, 1)
    | 5 => .ok (.TypeSamplerCubeArray, 1)
    | 6 => .ok (.TypeStructuredBuffer, 1)
    | 7 => .ok (.TypeRawBuffer, 1)
    | 8 => .ok (.TypeAccelerationStructure, 1)
    | 9 => .ok (.Type2DShadow, 1)
    | 10 => .ok (.Type2DArrayShadow, 1)
    | v => .error (.custom ("Invalid sapmler_type: " ++ toString v))

/-- Emit of `SamplerType` (src/src/sampler_definition.rs, lines 201-215): on
schema 1.21.20 the ordinal is written unchanged; on every other schema
`TypeSamplerCubeArray` is refused with a `Compat` error and four explicit
arms remap `TypeRawBuffer ↦ 5`, `TypeAccelerationStructure ↦ 6`,
`Type2DShadow ↦ 7`, `Type2DArrayShadow ↦ 8`, every other variant (including
`TypeStructuredBuffer`) falling through to the plain ordinal. -/
def SamplerType.to_u8 (s : SamplerType) (version : MinecraftVersion) :
    Except WErr Nat :=
  if version ≠ MinecraftVersion.V1_21_20 then
    match s with
    | .TypeSamplerCubeArray => .error (.compat
        "Sampler type is (Sampler Cube Array) ,which is incompatible with versions before 1.21.20")
    | .TypeRawBuffer => .ok 5
    | .TypeAccelerationStructure => .ok 6
    | .Type2DShadow => .ok 7
    | .Type2DArrayShadow => .ok 8
    | _ => .ok s.ordinal
  else .ok s.ordinal

/-- The `ShaderStage` of src/src/pass.rs (lines 547-569): four variants,
tag 3 = `Unknown`. -/
inductive ShaderStage where
  | Vertex
  | Fragment
  | Compute
  | Unknown
deriving DecidableEq

def ShaderStage.try_from_ctx (buffer : Bytes) : PResult (ShaderStage × Nat) :=
  match buffer.head? with
  | Option.none => .error .short
  | Option.some b =>
    match b.val with
    | 0 => .ok (.Vertex, 1)
    | 1 => .ok (.Fragment, 1)
    | 2 => .ok (.Compute, 1)
    | 3 => .ok (.Unknown, 1)
    | v => .error (.custom ("Invalid ShaderStage: " ++ toString v))

def ShaderStage.as_u8 : ShaderStage → Nat
  | .Vertex => 0
  | .Fragment => 1
  | .Compute => 2
  | .Unknown => 3

structure PlatformShaderStage where
  stage_name : Bytes
  platform_name : Bytes
  stage : ShaderStage
  platform : Lib.ShaderCodePlatform
deriving DecidableEq

/-- The `.unwrap()` call on a `Result`-returning read: an `Err` becomes a
Rust panic. -/
def unwrapP (p : ParserM α) : ParserM α := fun buf off =>
  match p buf off with
  | .ok r => .ok r
  | .error _ => .error (.panicked "called Result::unwrap() on an Err value")

/-- Parse of `PlatformShaderStage` (src/src/pass.rs, lines 577-596): every
read ends in `.unwrap()`, so any failure — a short buffer, bad UTF-8, an
invalid stage or platform tag — PANICS instead of returning an error. -/
def PlatformShaderStage.try_from_ctx (buffer : Bytes) :
    PResult (PlatformShaderStage × Nat) :=
  runP (do
    let stage_name ← unwrapP read_string
    let platform_name ← unwrapP read_string
    let stage ← unwrapP (pgread ShaderStage.try_from_ctx)
    let platform ← unwrapP (pgread Lib.ShaderCodePlatform.try_from_ctx)
    pure { stage_name := stage_name, platform_name := platform_name,
           stage := stage, platform := platform : PlatformShaderStage }) buffer

/-- Emit of `PlatformShaderStage` (src/src/pass.rs, lines 597-608). -/
def PlatformShaderStage.write (p : PlatformShaderStage) : WResult := do
  let b1 ← write_string p.stage_name
  let b2 ← write_string p.platform_name
  pure (b1 ++ b2 ++ leBytes 1 p.stage.as_u8 ++ leBytes 1 p.platform.as_u8)

/-- The `ShaderCode` of src/src/pass.rs (lines 258-290); the parse logic is
identical to the lib.rs one (the `bsd_len.try_into::<usize>().unwrap()`
cannot fail on a 64-bit target, and `buffer[offset..offset + bsd_size]` is
panicking slice indexing). -/
structure ShaderCode where
  shader_inputs : List (Bytes × Lib.ShaderInput)
  source_hash : Nat
  bgfx_shader_data : Bytes
deriving DecidableEq

def ShaderCode.try_from_ctx (buffer : Bytes) : PResult (ShaderCode × Nat) :=
  runP (do
    let input_count ← greadU16
    let shader_inputs ← table_loop read_string
      (pgread Lib.ShaderInput.try_from_ctx) input_count []
    let source_hash ← greadU64
    let bsd_len ← greadU32
    let bgfx_shader_data ← sliceIndex bsd_len
    pure { shader_inputs := shader_inputs, source_hash := source_hash,
           bgfx_shader_data := bgfx_shader_data : ShaderCode }) buffer

/-- Emit of `ShaderCode` (src/src/pass.rs, lines 291-308). -/
def ShaderCode.write (c : ShaderCode) : WResult := do
  let len ← u16_try_into c.shader_inputs.length
  let b1 ← write_table write_string Lib.ShaderInput.write c.shader_inputs
  let dlen ← u32_try_into c.bgfx_shader_data.length
  pure (leBytes 2 len ++ b1 ++ leBytes 8 c.source_hash ++ leBytes 4 dlen ++
    c.bgfx_shader_data)

structure Variant where
  is_supported : Bool
  flags : List (Bytes × Bytes)
  shader_codes : List (PlatformShaderStage × ShaderCode)
deriving DecidableEq

/-- Parse of `Variant` (src/src/pass.rs, lines 105-134). -/
def Variant.try_from_ctx (buffer : Bytes) : PResult (Variant × Nat) :=
  runP (do
    let is_supported ← read_bool
    let flag_count ← greadU16
    let shader_code_count ← greadU16
    let flags ← table_loop read_string read_string flag_count []
    let shader_codes ← table_loop (pgread PlatformShaderStage.try_from_ctx)
      (pgread ShaderCode.try_from_ctx) shader_code_count []
    pure { is_supported := is_supported, flags := flags,
           shader_codes := shader_codes : Variant }) buffer

/-- Emit of `Variant` (src/src/pass.rs, lines 135-156). -/
def Variant.write (v : Variant) : WResult := do
  let b0 := leBytes 1 (if v.is_supported then 1 else 0)
  let fl ← u16_try_into v.flags.length
  let sl ← u16_try_into v.shader_codes.length
  let bf ← write_table write_string write_string v.flags
  let bs ← write_table PlatformShaderStage.write ShaderCode.write v.shader_codes
  pure (b0 ++ leBytes 2 fl ++ leBytes 2 sl ++ bf ++ bs)

/-- The `flat_map`/`collect` loop of `Pass::try_from_ctx` (src/src/pass.rs,
lines 53-56): a failing element is silently dropped, the offset stays put,
and the remaining iterations retry from the same spot. -/
def variant_loop : Nat → ParserM (List Variant)
  | 0 => pure []
  | n + 1 => fun buf off =>
    match Variant.try_from_ctx (buf.drop off) with
    | .ok (v, sz) =>
      match variant_loop n buf (off + sz) with
      | .ok (vs, off') => .ok (v :: vs, off')
      | .error e => .error e
    | .error _ => variant_loop n buf off

structure Pass where
  bitset : Bytes
  fallback : Bytes
  default_blendmode : Option Lib.BlendMode
  default_flag_values : List (Bytes × Bytes)
  variants : List Variant
deriving DecidableEq

/-- Parse of `Pass` (src/src/pass.rs, lines 20-67) — same shape as the
lib.rs one, including the one-byte "u32 peek" with `offset -= 4` on schema
1.18.30. -/
def Pass.try_from_ctx (ctx : MinecraftVersion) (buffer : Bytes) :
    PResult (Pass × Nat) :=
  runP (do
    let bitset_read :=
      if ctx = MinecraftVersion.V1_18_30 then bitset_peek_1_18_30
      else read_string
    let bitset ← bitset_read
    let fallback ← read_string
    let default_blendmode ← optional_read (pgread Lib.BlendMode.try_from_ctx)
    let flag_dvalue_count ← greadU16
    let default_flag_values ← table_loop read_string read_string
      flag_dvalue_count []
    let variant_count ← greadU16
    let variants ← variant_loop variant_count
    pure { bitset := bitset, fallback := fallback,
           default_blendmode := default_blendmode,
           default_flag_values := default_flag_values,
           variants := variants : Pass }) buffer

/-- Emit of `Pass` (src/src/pass.rs, lines 69-98): an empty bitset is
refused with a `Compat` error regardless of the target schema (the
`else if version == V1_18_30` arm is an empty block). -/
def Pass.write (p : Pass) (version : MinecraftVersion) : WResult :=
  if p.bitset.isEmpty then
    .error (.compat "Bitset string is empty, Try fixing it in the main struct")
  else do
    let b1 ← write_string p.bitset
    let b2 ← write_string p.fallback
    let b3 ← optional_write p.default_blendmode
      (fun m => pure (leBytes 2 m.as_u16))
    let fl ← u16_try_into p.default_flag_values.length
    let b4 ← write_table write_string write_string p.default_flag_values
    let vl ← u16_try_into p.variants.length
    let b5 ← write_list Variant.write p.variants
    pure (b1 ++ b2 ++ b3 ++ leBytes 2 fl ++ b4 ++ leBytes 2 vl ++ b5)

structure Uniform where
  name : Bytes
  utype : Nat
  num : Nat
  reg_index : Nat
  reg_count : Nat
deriving DecidableEq

/-- Parse of `Uniform` (src/src/bgfx_shader.rs, lines 94-117): a u8-length
name (UTF-8 checked by the `&str` read), then u8 type, u8 num, u16 register
index, u16 register count. -/
def Uniform.try_from_ctx (input : Bytes) : PResult (Uniform × Nat) :=
  runP (do
    let str_len ← greadU8
    let name ← greadBytes str_len
    let _ ← pguard (utf8Valid name) (fun _ => .custom "invalid utf8")
    let utype ← greadU8
    let num ← greadU8
    let reg_index ← greadU16
    let reg_count ← greadU16
    pure { name := name, utype := utype, num := num, reg_index := reg_index,
           reg_count := reg_count : Uniform }) input

structure BgfxShader where
  magic : Nat
  hash : Nat
  uniforms : List Uniform
  code : Bytes
  attributes : Option (List Nat)
  size : Option Nat
deriving DecidableEq

/-- The `flat_map`/`collect` uniform loop of `BgfxShader::try_from_ctx`
(src/src/bgfx_shader.rs, lines 24-26): failures are dropped silently, like
the variant loop. -/
def uniform_loop : Nat → ParserM (List Uniform)
  | 0 => pure []
  | n + 1 => fun buf off =>
    match Uniform.try_from_ctx (buf.drop off) with
    | .ok (v, sz) =>
      match uniform_loop n buf (off + sz) with
      | .ok (vs, off') => .ok (v :: vs, off')
      | .error e => .error e
    | .error _ => uniform_loop n buf off

/-- Strict `(0..attr_count).map(..).collect::<Result<..>>` loop for the
trailer attributes: here a failing element DOES abort (`parsed?`). -/
def attr_loop : Nat → ParserM (List Nat)
  | 0 => pure []
  | n + 1 => do
    let a ← greadU16
    let rest ← attr_loop n
    pure (a :: rest)

/-- The `if let Ok(attr_count) = input.gread::<u8>(offset)` trailer block:
a failed count read leaves `(none, none)` and is not an error; a nonzero
count demands the attribute words and the struct size. -/
def BgfxShader.trailer : ParserM (Option (List Nat) × Option Nat) := fun buf off =>
  match greadU8 buf off with
  | .error _ => .ok ((Option.none, Option.none), off)
  | .ok (attr_count, off₁) =>
    if attr_count ≠ 0 then
      (do
        let attrs ← attr_loop attr_count
        let sz ← greadU16
        pure (Option.some attrs, Option.some sz)) buf off₁
    else .ok ((Option.none, Option.none), off₁)

/-- Parse of `BgfxShader` (src/src/bgfx_shader.rs, lines 17-59): magic,
hash, u16 uniform count, the swallowing uniform loop, u32 code length (the
`try_into::<usize>` cannot fail on 64-bit), the code bytes via scroll's
checked `&[u8]` read, one discarded byte, then the optional trailer. -/
def BgfxShader.try_from_ctx (input : Bytes) : PResult (BgfxShader × Nat) :=
  runP (do
    let magic ← greadU32
    let hash ← greadU32
    let uniform_count ← greadU16
    let uniforms ← uniform_loop uniform_count
    let code_len ← greadU32
    let code ← greadBytes code_len
    let _dumbbyte ← greadU8
    let (attributes, size) ← BgfxShader.trailer
    pure { magic := magic, hash := hash, uniforms := uniforms, code := code,
           attributes := attributes, size := size : BgfxShader }) input

end Mod

/-!
Strict (spec-canonical) decoder for the lib.rs revision, used to state the
round-trip property. It follows the lenient decoder step for step but
additionally enforces the spec's canonical-form provisos, each of which the
counterexamples show to be necessary for byte-identical re-encoding:

  - boolean bytes must be exactly 0 or 1 (lenient: any nonzero is true, but
    the emitters always write 1);
  - table keys must be distinct (lenient: `insert` overwrites, shrinking
    the table);
  - no property field of type `External` (lenient decode reads its count
    and has-data byte, the emitter writes neither);
  - every variant-list element must parse (lenient: failures are dropped,
    shrinking the list under its already-written count);
  - a pass bitset must be non-empty (the emitter refuses empty bitsets);
  - the closing quadword must equal the magic (lenient: ignored, emitter
    writes the magic).

Tables are insertion-ordered association lists, as the spec's ordered-map
mandate requires (src's lib.rs revision uses `std::collections::HashMap`,
whose iteration order is unspecified; the module revision uses `IndexMap`).
Everything else — all primitive reads, enum tables, field order and
version gating — is shared with the lenient embedding above.
-/

namespace Strict

/-- Strict boolean read: the byte must be exactly 0 or 1. -/
def read_bool_strict : ParserM Bool := do
  let b ← greadU8
  if b = 0 then pure false
  else if b = 1 then pure true
  else pfailAt (fun _ => .custom "strict: boolean byte not 0 or 1")

/-- Strict optional read: canonical presence byte, then the payload. -/
def optional_read_strict (p : ParserM α) : ParserM (Option α) := do
  let has ← read_bool_strict
  if has then do
    let v ← p
    pure (Option.some v)
  else pure Option.none

/-- Strict table loop: a key collision is refused, so the decoded list is
exactly the file's entry sequence in file order. -/
def table_loop_strict [DecidableEq κ] (pk : ParserM κ) (pv : ParserM ν) :
    Nat → List (κ × ν) → ParserM (List (κ × ν))
  | 0, acc => pure acc
  | n + 1, acc => do
    let k ← pk
    let v ← pv
    if k ∈ acc.map Prod.fst then
      pfailAt (fun _ => .custom "strict: duplicate table key")
    else table_loop_strict pk pv n (acc ++ [(k, v)])

/-- Strict `PropertyField`: `External` is refused (its count and has-data
byte do not round-trip), the rest is the shared parse. -/
def propertyField (buffer : Bytes) : PResult (Lib.PropertyField × Nat) :=
  runP (do
    let field_type ← pgread Lib.PropertyType.try_from_ctx
    if field_type = Lib.PropertyType.External then
      pfailAt (fun _ => .custom "strict: External property field")
    else do
      let num ← greadU32
      let has_data ← read_bool_strict
      let (vector_data, matrix_data) ← Lib.PropertyField.payload_read field_type has_data
      pure { field_type := field_type, num := num, vector_data := vector_data,
             matrix_data := matrix_data : Lib.PropertyField }) buffer

/-- Strict `ShaderInput`. -/
def shaderInput (buffer : Bytes) : PResult (Lib.ShaderInput × Nat) :=
  runP (do
    let input_type ← pgread Lib.ShaderInputType.try_from_ctx
    let attrib ← pgread Lib.Attribute.try_from_ctx
    let is_per_instance ← read_bool_strict
    let precision_constraint ←
      optional_read_strict (pgread Lib.PrecisionConstraint.try_from_ctx)
    let interpolation_constraint ←
      optional_read_strict (pgread Lib.InterpolationConstraint.try_from_ctx)
    pure { input_type := input_type, attrib := attrib,
           is_per_instance := is_per_instance,
           precision_constraint := precision_constraint,
           interpolation_constraint := interpolation_constraint :
           Lib.ShaderInput }) buffer

/-- Strict `SamplerDefinition`. -/
def samplerDefinition (ctx : Lib.MinecraftVersion) (buffer : Bytes) :
    PResult (Lib.SamplerDefinition × Nat) :=
  runP (do
    let reg_read := if ctx = Lib.MinecraftVersion.V1_18_30 then greadU8 else greadU16
    let reg ← reg_read
    let access ← pgread Lib.SamplerAccess.try_from_ctx
    let precision ← greadU8
    let allow_unordered_access ← greadU8
    let sampler_type ← pgread Lib.SamplerType.try_from_ctx
    let texture_format ← read_string
    let unknown_int ← greadU32
    let ub0_read :=
      if reg < 2 ^ 8 then pure reg
      else pfailAt (fun _ =>
        .custom "unknown byte parsing error: out of range integral type conversion attempted")
    let ub0 ← ub0_read
    let unknown_byte_read :=
      if ctx ≠ Lib.MinecraftVersion.V1_18_30 then greadU8 else pure ub0
    let unknown_byte ← unknown_byte_read
    let default_texture ← optional_read_strict read_string
    let unknown_string_read :=
      if ctx = Lib.MinecraftVersion.V1_20_80 then optional_read_strict read_string
      else pure Option.none
    let unknown_string ← unknown_string_read
    let custom_type_info ← optional_read_strict (pgread Lib.CustomTypeInfo.try_from_ctx)
    pure { reg := reg, access := access, precision := precision,
           allow_unordered_access := allow_unordered_access,
           sampler_type := sampler_type, texture_format := texture_format,
           unknown_int := unknown_int, unknown_byte := unknown_byte,
           default_texture := default_texture, unknown_string := unknown_string,
           custom_type_info := custom_type_info : Lib.SamplerDefinition }) buffer

/-- Strict `ShaderCode`. -/
def shaderCode (buffer : Bytes) : PResult (Lib.ShaderCode × Nat) :=
  runP (do
    let input_count ← greadU16
    let shader_inputs ← table_loop_strict read_string (pgread shaderInput)
      input_count []
    let source_hash ← greadU64
    let bsd_len ← greadU32
    let bgfx_shader_data ← sliceIndex bsd_len
    pure { shader_inputs := shader_inputs, source_hash := source_hash,
           bgfx_shader_data := bgfx_shader_data : Lib.ShaderCode }) buffer

/-- Strict `Variant`. -/
def variant (buffer : Bytes) : PResult (Lib.Variant × Nat) :=
  runP (do
    let is_supported ← read_bool_strict
    let flag_count ← greadU16
    let shader_code_count ← greadU16
    let flags ← table_loop_strict read_string read_string flag_count []
    let shader_codes ← table_loop_strict
      (pgread Lib.PlatformShaderStage.try_from_ctx) (pgread shaderCode)
      shader_code_count []
    pure { is_supported := is_supported, flags := flags,
           shader_codes := shader_codes : Lib.Variant }) buffer

/-- Strict variant loop: element failures propagate. -/
def variant_loop_strict : Nat → ParserM (List Lib.Variant)
  | 0 => pure []
  | n + 1 => do
    let v ← pgread variant
    let vs ← variant_loop_strict n
    pure (v :: vs)

/-- Strict `Pass`: additionally refuses an empty bitset (which the emitter
could not write back). -/
def pass (ctx : Lib.MinecraftVersion) (buffer : Bytes) :
    PResult (Lib.Pass × Nat) :=
  runP (do
    let bitset_read :=
      if ctx = Lib.MinecraftVersion.V1_18_30 then bitset_peek_1_18_30
      else read_string
    let bitset ← bitset_read
    if bitset.isEmpty then pfailAt (fun _ => .custom "strict: empty bitset")
    else do
      let fallback ← read_string
      let default_blendmode ← optional_read_strict (pgread Lib.BlendMode.try_from_ctx)
      let flag_dvalue_count ← greadU16
      let default_flag_values ← table_loop_strict read_string read_string
        flag_dvalue_count []
      let variant_count ← greadU16
      let variants ← variant_loop_strict variant_count
      pure { bitset := bitset, fallback := fallback,
             default_blendmode := default_blendmode,
             default_flag_values := default_flag_values,
             variants := variants : Lib.Pass }) buffer

/-- Strict `CompiledMaterialDefinition`: additionally checks the closing
magic, which the lenient decoder reads and ignores. -/
def compiledMaterialDefinition (ctx : Lib.MinecraftVersion) (buffer : Bytes) :
    PResult (Lib.CompiledMaterialDefinition × Nat) :=
  runP (do
    let magic ← greadU64
    let _ ← pguard (magic == Lib.MAGIC) (fun off => .badInput off "Invalid magic")
    let banner ← read_string
    let _ ← pguard (banner == Lib.BANNER) (fun off => .badInput off "Invalid definition")
    let version ← greadU64
    let encryption_variant ← pgread Lib.EncryptionVariant.try_from_ctx
    let _ ← pguard (encryption_variant == Lib.EncryptionVariant.None)
      (fun off => .badInput off "Not decrypting encrypted material")
    let name ← read_string
    let parent_name ← optional_read_strict read_string
    let sampler_definition_count ← greadU8
    let sampler_definitions ← table_loop_strict read_string
      (pgread (samplerDefinition ctx)) sampler_definition_count []
    let property_field_count ← greadU16
    let property_fields ← table_loop_strict read_string
      (pgread propertyField) property_field_count []
    let pass_count ← greadU16
    let passes ← table_loop_strict read_string (pgread (pass ctx)) pass_count []
    let end_magic ← greadU64
    let _ ← pguard (end_magic == Lib.MAGIC)
      (fun off => .custom "strict: closing magic mismatch")
    pure { version := version, encryption_variant := encryption_variant,
           name := name, parent_name := parent_name,
           sampler_definitions := sampler_definitions,
           property_fields := property_fields,
           passes := passes : Lib.CompiledMaterialDefinition }) buffer

end Strict

/-- The bytes a parser consumed between two offsets. -/
def extract (buf : Bytes) (off off' : Nat) : Bytes :=
  (buf.drop off).take (off' - off)

/-- Round-trip property of a sub-production parser `p` against an emitter
`E`: a successful parse consumes a prefix whose bytes `E` reproduces. -/
def SRT (p : Bytes → PResult (α × Nat)) (E : α → WResult) : Prop :=
  ∀ buf v n, p buf = .ok (v, n) → n ≤ buf.length ∧ E v = .ok (buf.take n)

/-- Offset-threading version of `SRT` for `ParserM` fragments. -/
def PRT (p : ParserM α) (E : α → WResult) : Prop :=
  ∀ buf off v off', off ≤ buf.length → p buf off = .ok (v, off') →
    off ≤ off' ∧ off' ≤ buf.length ∧ E v = .ok (extract buf off off')

/-- Refinement between parsers: whenever `ps` succeeds, `p` succeeds with
the same value and offset (used to carry strict-decoder successes over to
the lenient decoder). -/
def refineP (ps p : ParserM α) : Prop :=
  ∀ buf off r, ps buf off = .ok r → p buf off = .ok r

/-- Refinement between whole-production parsers. -/
def refineS (ps p : Bytes → PResult (α × Nat)) : Prop :=
  ∀ buf r, ps buf = .ok r → p buf = .ok r

/-!
Concrete byte files used by the claim theorems below.
-/

/-- The eight magic bytes framing every file. -/
def magicBytes : Bytes := leBytes 8 Lib.MAGIC

/-- The length-prefixed banner block. -/
def bannerBlock : Bytes := leBytes 4 39 ++ Lib.BANNER

/-- The `NONE` encryption tag on the wire. -/
def noneTag : Bytes := leBytes 4 0x4E4F4E45

/-- The `KYPR` encryption tag on the wire. -/
def kyprTag : Bytes := leBytes 4 0x4B595052

/-- A minimal well-formed material file without its trailing eight bytes:
empty name, no parent, no samplers, no properties, no passes. -/
def emptyBody : Bytes :=
  magicBytes ++ bannerBlock ++ leBytes 8 22 ++ noneTag ++
  [0, 0, 0, 0] ++ [0] ++ [0] ++ [0, 0] ++ [0, 0]

/-- The tree `emptyBody` decodes to. -/
def emptyMaterial : Lib.CompiledMaterialDefinition :=
  { version := 22, encryption_variant := Lib.EncryptionVariant.None,
    name := [], parent_name := Option.none, sampler_definitions := [],
    property_fields := [], passes := [] }

/-- The minimal file closed with the proper magic. -/
def emptyFile : Bytes := emptyBody ++ magicBytes

/-- A file that is `emptyFile` except that the boolean "has parent" byte
stores true as 2 instead of 1 (followed by an empty parent string). -/
def parentFlag2File : Bytes :=
  magicBytes ++ bannerBlock ++ leBytes 8 22 ++ noneTag ++
  [0, 0, 0, 0] ++ [2] ++ [0, 0, 0, 0] ++ [0] ++ [0, 0] ++ [0, 0] ++ magicBytes

/-- Same as `parentFlag2File` but with the flag byte 3 (for the boolean
canonicalization claim). -/
def parentFlag3File : Bytes :=
  magicBytes ++ bannerBlock ++ leBytes 8 22 ++ noneTag ++
  [0, 0, 0, 0] ++ [3] ++ [0, 0, 0, 0] ++ [0] ++ [0, 0] ++ [0, 0] ++ magicBytes

/-- The canonical form of the two files above: flag byte 1. -/
def parentFlag1File : Bytes :=
  magicBytes ++ bannerBlock ++ leBytes 8 22 ++ noneTag ++
  [0, 0, 0, 0] ++ [1] ++ [0, 0, 0, 0] ++ [0] ++ [0, 0] ++ [0, 0] ++ magicBytes

/-- The tree the flag-2/flag-3 files decode to: parent present and empty. -/
def parentMaterial : Lib.CompiledMaterialDefinition :=
  { version := 22, encryption_variant := Lib.EncryptionVariant.None,
    name := [], parent_name := Option.some [], sampler_definitions := [],
    property_fields := [], passes := [] }

/-- A file that stops right after a `KYPR` encryption tag. -/
def kyprFile : Bytes := magicBytes ++ bannerBlock ++ leBytes 8 22 ++ kyprTag

/-- Pass bytes for the swallowed-variant demonstration: bitset "a", empty
fallback, no blend mode, no flags, variant count 1, then a single byte 1 —
a truncated variant whose parse fails at the flag-count read. -/
def swallowPassBytes : Bytes :=
  [1, 0, 0, 0, 97] ++ [0, 0, 0, 0] ++ [0] ++ [0, 0] ++ [1, 0] ++ [1]

/-- The pass `swallowPassBytes` decodes to: the failing variant is dropped. -/
def swallowPass : Mod.Pass :=
  { bitset := [97], fallback := [], default_blendmode := Option.none,
    default_flag_values := [], variants := [] }

/-- Bgfx shader bytes for the swallowed-uniform demonstration: magic 0,
hash 0, uniform count 1, then 25 bytes that fail as a uniform (name length
20, but the reg-count u16 falls off the end) yet succeed as the code section
(code length 20, code, terminator byte). -/
def swallowBgfxBytes : Bytes :=
  [0, 0, 0, 0] ++ [0, 0, 0, 0] ++ [1, 0] ++ [20, 0, 0, 0] ++
  List.replicate 21 (0 : Byte)

/-- The shader `swallowBgfxBytes` decodes to: the failing uniform is
dropped and the same bytes are re-read as the code section. -/
def swallowBgfx : Mod.BgfxShader :=
  { magic := 0, hash := 0, uniforms := [], code := List.replicate 20 (0 : Byte),
    attributes := Option.none, size := Option.none }

/-!
Helper lemmas about the parser monad.
-/

theorem bindP_eq (p : ParserM α) (f : α → ParserM β) (buf : Bytes) (off : Nat) :
    (p >>= f) buf off =
      match p buf off with
      | .ok (a, off') => f a buf off'
      | .error e => .error e := rfl

theorem pureP_eq (a : α) (buf : Bytes) (off : Nat) :
    (pure a : ParserM α) buf off = .ok (a, off) := rfl

/-- Eliminates a successful bind into its two successful stages. -/
theorem bind_ok {p : ParserM α} {f : α → ParserM β} {buf : Bytes} {off : Nat}
    {b : β} {off₂ : Nat} (h : (p >>= f) buf off = .ok (b, off₂)) :
    ∃ a off₁, p buf off = .ok (a, off₁) ∧ f a buf off₁ = .ok (b, off₂) := by
  rw [bindP_eq] at h
  cases hp : p buf off with
  | ok r =>
    obtain ⟨a, off₁⟩ := r
    rw [hp] at h
    exact ⟨a, off₁, rfl, h⟩
  | error e =>
    rw [hp] at h
    exact absurd h (by simp)

/-- A successful guard means its condition held and the offset is unchanged. -/
theorem pguard_ok {c : Bool} {e : Nat → PErr} {buf : Bytes} {off : Nat}
    {u : Unit} {off' : Nat} (h : pguard c e buf off = .ok (u, off')) :
    c = true ∧ off' = off := by
  unfold pguard at h
  cases hc : c with
  | true =>
    rw [hc] at h
    simp only [if_true] at h
    injection h with h'
    exact ⟨rfl, (congrArg Prod.snd h').symm⟩
  | false => rw [hc] at h; exact absurd h (by simp)

/-- Eliminates a successful `Except` bind into its two stages. -/
theorem ebind_ok {ε α β : Type} {p : Except ε α} {f : α → Except ε β} {b : β}
    (h : (p >>= f) = .ok b) : ∃ a, p = .ok a ∧ f a = .ok b := by
  cases hp : p with
  | ok a =>
    rw [hp] at h
    exact ⟨a, rfl, h⟩
  | error e =>
    rw [hp] at h
    exact absurd h (by simp [Bind.bind, Except.bind])

/-- A bind of compat-free writers is compat-free. -/
theorem ebind_no_compat {α β : Type} {p : Except WErr α} {f : α → Except WErr β}
    (hp : ∀ s, p ≠ .error (.compat s)) (hf : ∀ a s, f a ≠ .error (.compat s)) :
    ∀ s, (p >>= f) ≠ .error (.compat s) := by
  intro s h
  cases hp' : p with
  | ok a =>
    rw [hp'] at h
    exact hf a s h
  | error e =>
    rw [hp'] at h
    have he : (Except.error e : Except WErr β) = .error (.compat s) := h
    injection he with he'
    exact hp s (by rw [hp', he'])

theorem write_string_no_compat (x : Bytes) :
    ∀ s, write_string x ≠ .error (.compat s) := by
  intro s
  unfold write_string
  split <;> simp

theorem u8_try_into_no_compat (v : Nat) :
    ∀ s, u8_try_into v ≠ .error (.compat s) := by
  intro s
  unfold u8_try_into
  split <;> simp

theorem u16_try_into_no_compat (v : Nat) :
    ∀ s, u16_try_into v ≠ .error (.compat s) := by
  intro s
  unfold u16_try_into
  split <;> simp

theorem u32_try_into_no_compat (v : Nat) :
    ∀ s, u32_try_into v ≠ .error (.compat s) := by
  intro s
  unfold u32_try_into
  split <;> simp

theorem pure_no_compat (a : α) :
    ∀ s, (pure a : Except WErr α) ≠ .error (.compat s) := by
  intro s
  simp [pure, Except.pure]

theorem optional_write_no_compat (o : Option α) (f : α → WResult)
    (hf : ∀ a s, f a ≠ .error (.compat s)) :
    ∀ s, optional_write o f ≠ .error (.compat s) := by
  cases o with
  | none => exact pure_no_compat _
  | some v =>
    exact ebind_no_compat (hf v) (fun a => pure_no_compat _)

theorem write_table_no_compat (wk : κ → WResult) (wv : ν → WResult)
    (hk : ∀ k s, wk k ≠ .error (.compat s)) (hv : ∀ v s, wv v ≠ .error (.compat s)) :
    ∀ (t : List (κ × ν)) s, write_table wk wv t ≠ .error (.compat s) := by
  intro t
  induction t with
  | nil => exact pure_no_compat _
  | cons e rest ih =>
    obtain ⟨k, v⟩ := e
    exact ebind_no_compat (hk k) fun bk =>
      ebind_no_compat (hv v) fun bv =>
        ebind_no_compat ih fun brest => pure_no_compat _

theorem write_list_no_compat (w : α → WResult)
    (hw : ∀ a s, w a ≠ .error (.compat s)) :
    ∀ (l : List α) s, write_list w l ≠ .error (.compat s) := by
  intro l
  induction l with
  | nil => exact pure_no_compat _
  | cons a rest ih =>
    exact ebind_no_compat (hw a) fun b =>
      ebind_no_compat ih fun bs => pure_no_compat _

theorem shader_input_write_no_compat (x : Lib.ShaderInput) :
    ∀ s, Lib.ShaderInput.write x ≠ .error (.compat s) := by
  unfold Lib.ShaderInput.write
  exact ebind_no_compat
    (optional_write_no_compat _ _ (fun a => pure_no_compat _)) fun b2 =>
    ebind_no_compat
      (optional_write_no_compat _ _ (fun a => pure_no_compat _)) fun b3 =>
      pure_no_compat _

theorem mod_pss_write_no_compat (x : Mod.PlatformShaderStage) :
    ∀ s, Mod.PlatformShaderStage.write x ≠ .error (.compat s) := by
  unfold Mod.PlatformShaderStage.write
  exact ebind_no_compat (write_string_no_compat _) fun b1 =>
    ebind_no_compat (write_string_no_compat _) fun b2 => pure_no_compat _

theorem mod_shader_code_write_no_compat (x : Mod.ShaderCode) :
    ∀ s, Mod.ShaderCode.write x ≠ .error (.compat s) := by
  unfold Mod.ShaderCode.write
  exact ebind_no_compat (u16_try_into_no_compat _) fun len =>
    ebind_no_compat (write_table_no_compat _ _
      (fun k => write_string_no_compat k) (fun v => shader_input_write_no_compat v) _)
      fun b1 =>
      ebind_no_compat (u32_try_into_no_compat _) fun dlen => pure_no_compat _

theorem mod_variant_write_no_compat (v : Mod.Variant) :
    ∀ s, Mod.Variant.write v ≠ .error (.compat s) := by
  unfold Mod.Variant.write
  exact ebind_no_compat (u16_try_into_no_compat _) fun fl =>
    ebind_no_compat (u16_try_into_no_compat _) fun sl =>
      ebind_no_compat (write_table_no_compat _ _
        (fun k => write_string_no_compat k) (fun w => write_string_no_compat w) _)
        fun bf =>
        ebind_no_compat (write_table_no_compat _ _
          (fun k => mod_pss_write_no_compat k)
          (fun w => mod_shader_code_write_no_compat w) _) fun bs =>
          pure_no_compat _

/-!
Refinement lemmas: a strict-decoder success is a lenient-decoder success
with the same value and consumed size.
-/

/-- One executed bind step, for forward evaluation by rewriting. -/
theorem bind_ok_step {p : ParserM α} {buf : Bytes} {off : Nat} {a : α}
    {off₁ : Nat} (h : p buf off = .ok (a, off₁)) (f : α → ParserM β) :
    (p >>= f) buf off = f a buf off₁ := by
  rw [bindP_eq, h]

theorem refineP_refl (p : ParserM α) : refineP p p := fun _ _ _ h => h

theorem refineP_bind {ps p : ParserM α} {fs f : α → ParserM β}
    (hp : refineP ps p) (hf : ∀ a, refineP (fs a) (f a)) :
    refineP (ps >>= fs) (p >>= f) := by
  intro buf off r h
  obtain ⟨a, off₁, h1, h2⟩ := bind_ok h
  rw [bind_ok_step (hp buf off _ h1)]
  exact hf a buf off₁ r h2

theorem refineP_pfailAt (e : Nat → PErr) (p : ParserM α) :
    refineP (pfailAt e) p := by
  intro buf off r h
  exact absurd h (by simp [pfailAt])

theorem read_bool_strict_refine : refineP Strict.read_bool_strict read_bool := by
  intro buf off r h
  unfold Strict.read_bool_strict at h
  obtain ⟨v, o1, h1, h⟩ := bind_ok h
  unfold read_bool
  rw [bind_ok_step h1]
  by_cases h0 : v = 0
  · subst h0
    rw [if_pos rfl, pureP_eq] at h
    rw [← h]
    rfl
  · rw [if_neg h0] at h
    by_cases h1v : v = 1
    · subst h1v
      rw [if_pos rfl, pureP_eq] at h
      rw [← h]
      rfl
    · rw [if_neg h1v] at h
      exact absurd h (by simp [pfailAt])

theorem optional_read_strict_refine {ps p : ParserM α} (hp : refineP ps p) :
    refineP (Strict.optional_read_strict ps) (optional_read p) := by
  unfold Strict.optional_read_strict optional_read
  refine refineP_bind read_bool_strict_refine fun has => ?_
  cases has with
  | true =>
    simp only [if_pos]
    exact refineP_bind hp fun v => refineP_refl _
  | false =>
    simp only [Bool.false_eq_true, if_neg, if_false]
    exact refineP_refl _

/-- With a fresh key, the `IndexMap` insert is a plain append. -/
theorem insertAssoc_fresh [DecidableEq κ] {k : κ} {v : ν} :
    ∀ {acc : List (κ × ν)}, k ∉ acc.map Prod.fst →
      insertAssoc k v acc = acc ++ [(k, v)] := by
  intro acc
  induction acc with
  | nil => intro _; rfl
  | cons e rest ih =>
    intro hmem
    obtain ⟨k₀, v₀⟩ := e
    simp only [List.map_cons, List.mem_cons] at hmem
    push_neg at hmem
    unfold insertAssoc
    rw [if_neg (fun he => hmem.1 he.symm)]
    rw [ih hmem.2]
    rfl

theorem table_loop_strict_refine [DecidableEq κ] {pks pk : ParserM κ}
    {pvs pv : ParserM ν} (hk : refineP pks pk) (hv : refineP pvs pv) :
    ∀ (n : Nat) (acc : List (κ × ν)),
      refineP (Strict.table_loop_strict pks pvs n acc) (table_loop pk pv n acc) := by
  intro n
  induction n with
  | zero => intro acc; exact refineP_refl _
  | succ m ih =>
    intro acc buf off r h
    unfold Strict.table_loop_strict at h
    obtain ⟨k, o1, h1, h⟩ := bind_ok h
    obtain ⟨v, o2, h2, h⟩ := bind_ok h
    by_cases hmem : k ∈ acc.map Prod.fst
    · rw [if_pos hmem] at h
      exact absurd h (by simp [pfailAt])
    · rw [if_neg hmem] at h
      unfold table_loop
      rw [bind_ok_step (hk buf off _ h1), bind_ok_step (hv buf o1 _ h2),
        insertAssoc_fresh hmem]
      exact ih (acc ++ [(k, v)]) buf o2 r h

theorem pgread_refine {subs sub : Bytes → PResult (α × Nat)}
    (h : refineS subs sub) : refineP (pgread subs) (pgread sub) := by
  intro buf off r hp
  unfold pgread at hp ⊢
  cases hs : subs (buf.drop off) with
  | ok q =>
    rw [hs] at hp
    rw [h _ _ hs]
    exact hp
  | error e =>
    rw [hs] at hp
    exact absurd hp (by simp)

theorem propertyField_refine :
    refineS Strict.propertyField Lib.PropertyField.try_from_ctx := by
  intro buf r h
  unfold Strict.propertyField runP at h
  obtain ⟨ft, o1, h1, h⟩ := bind_ok h
  by_cases he : ft = Lib.PropertyType.External
  · rw [if_pos he] at h
    exact absurd h (by simp [pfailAt])
  · rw [if_neg he] at h
    obtain ⟨num, o2, h2, h⟩ := bind_ok h
    obtain ⟨hd, o3, h3, h⟩ := bind_ok h
    unfold Lib.PropertyField.try_from_ctx runP
    rw [bind_ok_step h1, bind_ok_step h2,
      bind_ok_step (read_bool_strict_refine buf o2 _ h3)]
    exact h

theorem shaderInput_refine :
    refineS Strict.shaderInput Lib.ShaderInput.try_from_ctx := by
  intro buf r h
  unfold Strict.shaderInput runP at h
  obtain ⟨it, o1, h1, h⟩ := bind_ok h
  obtain ⟨at_, o2, h2, h⟩ := bind_ok h
  obtain ⟨ipi, o3, h3, h⟩ := bind_ok h
  obtain ⟨pc, o4, h4, h⟩ := bind_ok h
  obtain ⟨ic, o5, h5, h⟩ := bind_ok h
  unfold Lib.ShaderInput.try_from_ctx runP
  rw [bind_ok_step h1, bind_ok_step h2,
    bind_ok_step (read_bool_strict_refine buf o2 _ h3),
    bind_ok_step (optional_read_strict_refine (refineP_refl _) buf o3 _ h4),
    bind_ok_step (optional_read_strict_refine (refineP_refl _) buf o4 _ h5)]
  exact h

theorem samplerDefinition_refine (ctx : Lib.MinecraftVersion) :
    refineS (Strict.samplerDefinition ctx)
      (Lib.SamplerDefinition.try_from_ctx ctx) := by
  intro buf r h
  unfold Strict.samplerDefinition runP at h
  obtain ⟨reg, o1, h1, h⟩ := bind_ok h
  obtain ⟨acc, o2, h2, h⟩ := bind_ok h
  obtain ⟨prec, o3, h3, h⟩ := bind_ok h
  obtain ⟨aua, o4, h4, h⟩ := bind_ok h
  obtain ⟨st, o5, h5, h⟩ := bind_ok h
  obtain ⟨tf, o6, h6, h⟩ := bind_ok h
  obtain ⟨ui, o7, h7, h⟩ := bind_ok h
  obtain ⟨ub0, o8, h8, h⟩ := bind_ok h
  obtain ⟨ub, o9, h9, h⟩ := bind_ok h
  obtain ⟨dt, o10, h10, h⟩ := bind_ok h
  obtain ⟨us, o11, h11, h⟩ := bind_ok h
  obtain ⟨cti, o12, h12, h⟩ := bind_ok h
  have h11' : (if ctx = Lib.MinecraftVersion.V1_20_80 then optional_read read_string
      else pure Option.none) buf o10 = .ok (us, o11) := by
    by_cases hv : ctx = Lib.MinecraftVersion.V1_20_80
    · rw [if_pos hv]
      rw [if_pos hv] at h11
      exact optional_read_strict_refine (refineP_refl _) buf o10 _ h11
    · rw [if_neg hv]
      rw [if_neg hv] at h11
      exact h11
  unfold Lib.SamplerDefinition.try_from_ctx runP
  rw [bind_ok_step h1, bind_ok_step h2, bind_ok_step h3, bind_ok_step h4,
    bind_ok_step h5, bind_ok_step h6, bind_ok_step h7, bind_ok_step h8,
    bind_ok_step h9,
    bind_ok_step (optional_read_strict_refine (refineP_refl _) buf o9 _ h10),
    bind_ok_step h11',
    bind_ok_step (optional_read_strict_refine (refineP_refl _) buf o11 _ h12)]
  exact h

theorem shaderCode_refine :
    refineS Strict.shaderCode Lib.ShaderCode.try_from_ctx := by
  intro buf r h
  unfold Strict.shaderCode runP at h
  obtain ⟨ic, o1, h1, h⟩ := bind_ok h
  obtain ⟨si, o2, h2, h⟩ := bind_ok h
  obtain ⟨sh, o3, h3, h⟩ := bind_ok h
  obtain ⟨bl, o4, h4, h⟩ := bind_ok h
  obtain ⟨bd, o5, h5, h⟩ := bind_ok h
  unfold Lib.ShaderCode.try_from_ctx runP
  rw [bind_ok_step h1,
    bind_ok_step (table_loop_strict_refine (refineP_refl _)
      (pgread_refine shaderInput_refine) ic [] buf o1 _ h2),
    bind_ok_step h3, bind_ok_step h4, bind_ok_step h5]
  exact h

theorem variant_refine : refineS Strict.variant Lib.Variant.try_from_ctx := by
  intro buf r h
  unfold Strict.variant runP at h
  obtain ⟨isup, o1, h1, h⟩ := bind_ok h
  obtain ⟨fc, o2, h2, h⟩ := bind_ok h
  obtain ⟨sc, o3, h3, h⟩ := bind_ok h
  obtain ⟨fl, o4, h4, h⟩ := bind_ok h
  obtain ⟨scs, o5, h5, h⟩ := bind_ok h
  unfold Lib.Variant.try_from_ctx runP
  rw [bind_ok_step (read_bool_strict_refine buf 0 _ h1), bind_ok_step h2,
    bind_ok_step h3,
    bind_ok_step (table_loop_strict_refine (refineP_refl _) (refineP_refl _)
      fc [] buf o3 _ h4),
    bind_ok_step (table_loop_strict_refine (refineP_refl _)
      (pgread_refine shaderCode_refine) sc [] buf o4 _ h5)]
  exact h

theorem variant_loop_strict_refine :
    ∀ n, refineP (Strict.variant_loop_strict n) (Lib.variant_loop n) := by
  intro n
  induction n with
  | zero => exact refineP_refl _
  | succ m ih =>
    intro buf off r h
    unfold Strict.variant_loop_strict at h
    obtain ⟨v, o1, h1, h⟩ := bind_ok h
    obtain ⟨vs, o2, h2, hfin⟩ := bind_ok h
    rw [pureP_eq] at hfin
    unfold pgread at h1
    cases hs : Strict.variant (buf.drop off) with
    | ok q =>
      rw [hs] at h1
      obtain ⟨vv, sz⟩ := q
      injection h1 with h1'
      injection h1' with hv ho
      subst hv
      subst ho
      unfold Lib.variant_loop
      simp only [variant_refine _ _ hs]
      simp only [ih buf (off + sz) _ h2]
      exact hfin
    | error e =>
      rw [hs] at h1
      exact absurd h1 (by simp)

theorem pass_refine (ctx : Lib.MinecraftVersion) :
    refineS (Strict.pass ctx) (Lib.Pass.try_from_ctx ctx) := by
  intro buf r h
  unfold Strict.pass runP at h
  obtain ⟨bs, o1, h1, h⟩ := bind_ok h
  by_cases hbe : bs.isEmpty
  · rw [if_pos hbe] at h
    exact absurd h (by simp [pfailAt])
  · rw [if_neg hbe] at h
    obtain ⟨fb, o2, h2, h⟩ := bind_ok h
    obtain ⟨bm, o3, h3, h⟩ := bind_ok h
    obtain ⟨fc, o4, h4, h⟩ := bind_ok h
    obtain ⟨fv, o5, h5, h⟩ := bind_ok h
    obtain ⟨vc, o6, h6, h⟩ := bind_ok h
    obtain ⟨vs, o7, h7, h⟩ := bind_ok h
    unfold Lib.Pass.try_from_ctx runP
    rw [bind_ok_step h1, bind_ok_step h2,
      bind_ok_step (optional_read_strict_refine (refineP_refl _) buf o2 _ h3),
      bind_ok_step h4,
      bind_ok_step (table_loop_strict_refine (refineP_refl _) (refineP_refl _)
        fc [] buf o4 _ h5),
      bind_ok_step h6,
      bind_ok_step (variant_loop_strict_refine vc buf o6 _ h7)]
    exact h

theorem cmd_refine (ctx : Lib.MinecraftVersion) :
    refineS (Strict.compiledMaterialDefinition ctx)
      (Lib.CompiledMaterialDefinition.try_from_ctx ctx) := by
  intro buf r h
  unfold Strict.compiledMaterialDefinition runP at h
  obtain ⟨mg, o1, h1, h⟩ := bind_ok h
  obtain ⟨u1, o2, hg1, h⟩ := bind_ok h
  obtain ⟨bn, o3, h3, h⟩ := bind_ok h
  obtain ⟨u2, o4, hg2, h⟩ := bind_ok h
  obtain ⟨ver, o5, h5, h⟩ := bind_ok h
  obtain ⟨ev, o6, h6, h⟩ := bind_ok h
  obtain ⟨u3, o7, hg3, h⟩ := bind_ok h
  obtain ⟨nm, o8, h8, h⟩ := bind_ok h
  obtain ⟨par, o9, h9, h⟩ := bind_ok h
  obtain ⟨sdc, o10, h10, h⟩ := bind_ok h
  obtain ⟨sds, o11, h11, h⟩ := bind_ok h
  obtain ⟨pfc, o12, h12, h⟩ := bind_ok h
  obtain ⟨pfs, o13, h13, h⟩ := bind_ok h
  obtain ⟨pc, o14, h14, h⟩ := bind_ok h
  obtain ⟨ps, o15, h15, h⟩ := bind_ok h
  obtain ⟨em, o16, h16, h⟩ := bind_ok h
  obtain ⟨u4, o17, hg4, h⟩ := bind_ok h
  obtain ⟨hu4, ho17⟩ := pguard_ok hg4
  unfold Lib.CompiledMaterialDefinition.try_from_ctx runP
  rw [bind_ok_step h1, bind_ok_step hg1, bind_ok_step h3, bind_ok_step hg2,
    bind_ok_step h5, bind_ok_step h6, bind_ok_step hg3, bind_ok_step h8,
    bind_ok_step (optional_read_strict_refine (refineP_refl _) buf o8 _ h9),
    bind_ok_step h10,
    bind_ok_step (table_loop_strict_refine (refineP_refl _)
      (pgread_refine (samplerDefinition_refine ctx)) sdc [] buf o10 _ h11),
    bind_ok_step h12,
    bind_ok_step (table_loop_strict_refine (refineP_refl _)
      (pgread_refine propertyField_refine) pfc [] buf o12 _ h13),
    bind_ok_step h14,
    bind_ok_step (table_loop_strict_refine (refineP_refl _)
      (pgread_refine (pass_refine ctx)) pc [] buf o14 _ h15),
    bind_ok_step h16]
  rw [ho17] at h
  exact h

/-!
Round-trip lemmas: a strict-decoder success consumes exactly the bytes the
emitter writes back. Stated via `SRT` (whole productions) and `PRT`
(offset-threading fragments).
-/

/-- One executed bind step of the `Except` writer monad. -/
theorem ebind_ok_step {ε α β : Type} {p : Except ε α} {a : α} (h : p = .ok a)
    (f : α → Except ε β) : (p >>= f) = f a := by
  rw [h]
  rfl

theorem takeN_some : ∀ (n : Nat) (l bs : Bytes), takeN n l = some bs →
    bs = l.take n ∧ n ≤ l.length := by
  intro n
  induction n with
  | zero =>
    intro l bs h
    unfold takeN at h
    injection h with h'
    simp [← h']
  | succ m ih =>
    intro l bs h
    cases l with
    | nil => exact absurd h (by simp [takeN])
    | cons b rest =>
      unfold takeN at h
      cases ht : takeN m rest with
      | some out =>
        rw [ht] at h
        simp only at h
        injection h with h'
        obtain ⟨ho, hl⟩ := ih rest out ht
        subst h'
        refine ⟨by rw [ho]; rfl, by simpa using hl⟩
      | none =>
        rw [ht] at h
        exact absurd h (by simp)

theorem leVal_lt : ∀ bs : Bytes, leVal bs < 256 ^ bs.length := by
  intro bs
  induction bs with
  | nil => simp [leVal]
  | cons b rest ih =>
    unfold leVal
    have hb := b.isLt
    simp only [List.length_cons, pow_succ]
    calc b.val + 256 * leVal rest < 256 + 256 * leVal rest := by omega
    _ ≤ 256 * (leVal rest + 1) := by ring_nf; omega
    _ ≤ 256 ^ rest.length * 256 := by
        have : leVal rest + 1 ≤ 256 ^ rest.length := ih
        nlinarith [pow_pos (show (0:ℕ) < 256 by decide) rest.length]

theorem leBytes_leVal : ∀ bs : Bytes, leBytes bs.length (leVal bs) = bs := by
  intro bs
  induction bs with
  | nil => rfl
  | cons b rest ih =>
    show leBytes (rest.length + 1) (b.val + 256 * leVal rest) = b :: rest
    unfold leBytes
    have h1 : (b.val + 256 * leVal rest) % 256 = b.val := by
      rw [Nat.add_mul_mod_self_left]
      exact Nat.mod_eq_of_lt b.isLt
    have h2 : (b.val + 256 * leVal rest) / 256 = leVal rest := by
      rw [Nat.add_mul_div_left _ _ (by norm_num : (0:ℕ) < 256)]
      rw [Nat.div_eq_of_lt b.isLt]
      omega
    congr 1
    · exact Fin.ext h1
    · rw [h2]
      exact ih

theorem leBytes_one_val (b : Byte) : leBytes 1 b.val = [b] := by
  unfold leBytes leBytes
  congr 1
  exact Fin.ext (Nat.mod_eq_of_lt b.isLt)

theorem extract_nil (buf : Bytes) (off : Nat) : extract buf off off = [] := by
  simp [extract]

theorem extract_eq_take (buf : Bytes) (n : Nat) : extract buf 0 n = buf.take n := by
  simp [extract]

theorem extract_append {buf : Bytes} {off off₁ off₂ : Nat}
    (h1 : off ≤ off₁) (h2 : off₁ ≤ off₂) :
    extract buf off off₁ ++ extract buf off₁ off₂ = extract buf off off₂ := by
  unfold extract
  have hs : off₂ - off = (off₁ - off) + (off₂ - off₁) := by omega
  rw [hs, List.take_add]
  congr 1
  rw [List.drop_drop]
  congr 2
  omega

theorem greadLE_ok {w : Nat} {buf : Bytes} {off v off' : Nat}
    (hoff : off ≤ buf.length) (h : greadLE w buf off = .ok (v, off')) :
    off' = off + w ∧ off' ≤ buf.length ∧ v < 256 ^ w ∧
    leBytes w v = extract buf off off' := by
  unfold greadLE takeExact at h
  cases ht : takeN w (buf.drop off) with
  | some bs =>
    rw [ht] at h
    injection h with h'
    injection h' with hv ho
    obtain ⟨hbs, hlen⟩ := takeN_some w _ bs ht
    rw [List.length_drop] at hlen
    have hblen : bs.length = w := by
      rw [hbs, List.length_take, List.length_drop]
      omega
    subst hv
    refine ⟨by omega, by omega, ?_, ?_⟩
    · have := leVal_lt bs
      rw [hblen] at this
      exact this
    · rw [← hblen, leBytes_leVal bs, hbs, ← ho]
      unfold extract
      congr 1
      omega
  | none =>
    rw [ht] at h
    exact absurd h (by simp)

theorem greadBytes_ok {n : Nat} {buf : Bytes} {off : Nat} {bs : Bytes}
    {off' : Nat} (hoff : off ≤ buf.length)
    (h : greadBytes n buf off = .ok (bs, off')) :
    off' = off + n ∧ off' ≤ buf.length ∧ bs.length = n ∧
    bs = extract buf off off' := by
  unfold greadBytes takeExact at h
  cases ht : takeN n (buf.drop off) with
  | some out =>
    rw [ht] at h
    injection h with h'
    injection h' with hv ho
    obtain ⟨hout, hlen⟩ := takeN_some n _ out ht
    rw [List.length_drop] at hlen
    subst hv
    refine ⟨by omega, by omega, ?_, ?_⟩
    · rw [hout, List.length_take, List.length_drop]
      omega
    · rw [hout, ← ho]
      unfold extract
      congr 1
      omega
  | none =>
    rw [ht] at h
    exact absurd h (by simp)

theorem sliceIndex_ok {n : Nat} {buf : Bytes} {off : Nat} {bs : Bytes}
    {off' : Nat} (hoff : off ≤ buf.length)
    (h : sliceIndex n buf off = .ok (bs, off')) :
    off' = off + n ∧ off' ≤ buf.length ∧ bs.length = n ∧
    bs = extract buf off off' := by
  unfold sliceIndex at h
  cases ht : takeN n (buf.drop off) with
  | some out =>
    rw [ht] at h
    injection h with h'
    injection h' with hv ho
    obtain ⟨hout, hlen⟩ := takeN_some n _ out ht
    rw [List.length_drop] at hlen
    subst hv
    refine ⟨by omega, by omega, ?_, ?_⟩
    · rw [hout, List.length_take, List.length_drop]
      omega
    · rw [hout, ← ho]
      unfold extract
      congr 1
      omega
  | none =>
    rw [ht] at h
    exact absurd h (by simp)

theorem samplerAccess_srt :
    SRT Lib.SamplerAccess.try_from_ctx
      (fun v => .ok (leBytes 1 v.as_u8)) := by
  intro buf v n h
  unfold Lib.SamplerAccess.try_from_ctx at h
  cases buf with
  | nil => exact absurd h (by simp)
  | cons b rest =>
    simp only [List.head?] at h
    split at h <;> rename_i heq <;>
      first
      | exact Except.noConfusion h
      | · injection h with h'
          injection h' with hv hn
          subst hv
          subst hn
          refine ⟨by simp, ?_⟩
          show Except.ok (leBytes 1 _) = _
          rw [show List.take 1 (b :: rest) = [b] by simp, ← leBytes_one_val b]
          congr 2
          simp only [Lib.SamplerAccess.as_u8]
          omega

theorem samplerType_srt :
    SRT Lib.SamplerType.try_from_ctx
      (fun v => .ok (leBytes 1 v.to_u8)) := by
  intro buf v n h
  unfold Lib.SamplerType.try_from_ctx at h
  cases buf with
  | nil => exact Except.noConfusion h
  | cons b rest =>
    simp only [List.head?] at h
    split at h <;> rename_i heq <;>
      first
      | exact Except.noConfusion h
      | · injection h with h'
          injection h' with hv hn
          subst hv
          subst hn
          refine ⟨by simp, ?_⟩
          show Except.ok (leBytes 1 _) = _
          rw [show List.take 1 (b :: rest) = [b] by simp, ← leBytes_one_val b]
          congr 2
          simp only [Lib.SamplerType.to_u8]
          omega

theorem shaderStage_srt :
    SRT Lib.ShaderStage.try_from_ctx
      (fun v => .ok (leBytes 1 v.as_u8)) := by
  intro buf v n h
  unfold Lib.ShaderStage.try_from_ctx at h
  cases buf with
  | nil => exact Except.noConfusion h
  | cons b rest =>
    simp only [List.head?] at h
    split at h <;> rename_i heq <;>
      first
      | exact Except.noConfusion h
      | · injection h with h'
          injection h' with hv hn
          subst hv
          subst hn
          refine ⟨by simp, ?_⟩
          show Except.ok (leBytes 1 _) = _
          rw [show List.take 1 (b :: rest) = [b] by simp, ← leBytes_one_val b]
          congr 2
          simp only [Lib.ShaderStage.as_u8]
          omega

theorem shaderCodePlatform_srt :
    SRT Lib.ShaderCodePlatform.try_from_ctx
      (fun v => .ok (leBytes 1 v.as_u8)) := by
  intro buf v n h
  unfold Lib.ShaderCodePlatform.try_from_ctx at h
  cases buf with
  | nil => exact Except.noConfusion h
  | cons b rest =>
    simp only [List.head?] at h
    split at h <;> rename_i heq <;>
      first
      | exact Except.noConfusion h
      | · injection h with h'
          injection h' with hv hn
          subst hv
          subst hn
          refine ⟨by simp, ?_⟩
          show Except.ok (leBytes 1 _) = _
          rw [show List.take 1 (b :: rest) = [b] by simp, ← leBytes_one_val b]
          congr 2
          simp only [Lib.ShaderCodePlatform.as_u8]
          omega

theorem shaderInputType_srt :
    SRT Lib.ShaderInputType.try_from_ctx
      (fun v => .ok (leBytes 1 v.as_u8)) := by
  intro buf v n h
  unfold Lib.ShaderInputType.try_from_ctx at h
  cases buf with
  | nil => exact Except.noConfusion h
  | cons b rest =>
    simp only [List.head?] at h
    split at h <;> rename_i heq <;>
      first
      | exact Except.noConfusion h
      | · injection h with h'
          injection h' with hv hn
          subst hv
          subst hn
          refine ⟨by simp, ?_⟩
          show Except.ok (leBytes 1 _) = _
          rw [show List.take 1 (b :: rest) = [b] by simp, ← leBytes_one_val b]
          congr 2
          simp only [Lib.ShaderInputType.as_u8]
          omega

theorem precisionConstraint_srt :
    SRT Lib.PrecisionConstraint.try_from_ctx
      (fun c => (pure (leBytes 1 c.as_u8) : WResult)) := by
  intro buf v n h
  unfold Lib.PrecisionConstraint.try_from_ctx at h
  cases buf with
  | nil => exact Except.noConfusion h
  | cons b rest =>
    simp only [List.head?] at h
    split at h <;> rename_i heq <;>
      first
      | exact Except.noConfusion h
      | · injection h with h'
          injection h' with hv hn
          subst hv
          subst hn
          refine ⟨by simp, ?_⟩
          show Except.ok (leBytes 1 _) = _
          rw [show List.take 1 (b :: rest) = [b] by simp, ← leBytes_one_val b]
          congr 2
          simp only [Lib.PrecisionConstraint.as_u8]
          omega

theorem interpolationConstraint_srt :
    SRT Lib.InterpolationConstraint.try_from_ctx
      (fun c => (pure (leBytes 1 c.as_u8) : WResult)) := by
  intro buf v n h
  unfold Lib.InterpolationConstraint.try_from_ctx at h
  cases buf with
  | nil => exact Except.noConfusion h
  | cons b rest =>
    simp only [List.head?] at h
    split at h <;> rename_i heq <;>
      first
      | exact Except.noConfusion h
      | · injection h with h'
          injection h' with hv hn
          subst hv
          subst hn
          refine ⟨by simp, ?_⟩
          show Except.ok (leBytes 1 _) = _
          rw [show List.take 1 (b :: rest) = [b] by simp, ← leBytes_one_val b]
          congr 2
          simp only [Lib.InterpolationConstraint.as_u8]
          omega

theorem propertyType_srt :
    SRT Lib.PropertyType.try_from_ctx
      (fun v => .ok (leBytes 2 v.to_u16)) := by
  intro buf v n h
  unfold Lib.PropertyType.try_from_ctx at h
  split at h
  · exact Except.noConfusion h
  · rename_i bs ht
    unfold takeExact at ht
    obtain ⟨hbs, hlen⟩ := takeN_some 2 _ bs ht
    simp only [List.drop_zero] at hbs hlen
    have hblen : bs.length = 2 := by rw [hbs, List.length_take]; omega
    split at h <;> rename_i heq <;>
      first
      | exact Except.noConfusion h
      | · injection h with h'
          injection h' with hv hn
          subst hv
          subst hn
          refine ⟨by omega, ?_⟩
          show Except.ok (leBytes 2 _) = _
          rw [show List.take 2 buf = leBytes 2 (leVal bs) by
            rw [← hbs, ← hblen, leBytes_leVal]]
          congr 2
          simp only [Lib.PropertyType.to_u16]
          omega

theorem blendMode_srt :
    SRT Lib.BlendMode.try_from_ctx
      (fun m => (pure (leBytes 2 m.as_u16) : WResult)) := by
  intro buf v n h
  unfold Lib.BlendMode.try_from_ctx at h
  split at h
  · exact Except.noConfusion h
  · rename_i bs ht
    unfold takeExact at ht
    obtain ⟨hbs, hlen⟩ := takeN_some 2 _ bs ht
    simp only [List.drop_zero] at hbs hlen
    have hblen : bs.length = 2 := by rw [hbs, List.length_take]; omega
    split at h <;> rename_i heq <;>
      first
      | exact Except.noConfusion h
      | · injection h with h'
          injection h' with hv hn
          subst hv
          subst hn
          refine ⟨by omega, ?_⟩
          show Except.ok (leBytes 2 _) = _
          rw [show List.take 2 buf = leBytes 2 (leVal bs) by
            rw [← hbs, ← hblen, leBytes_leVal]]
          congr 2
          simp only [Lib.BlendMode.as_u16]
          omega

theorem leBytes_pair {i s : Nat} {b c : Byte} (hi : i = b.val) (hs : s = c.val) :
    leBytes 1 i ++ leBytes 1 s = [b, c] := by
  subst hi
  subst hs
  rw [leBytes_one_val, leBytes_one_val]
  rfl

theorem attribute_srt :
    SRT Lib.Attribute.try_from_ctx
      (fun v => .ok (leBytes 1 v.to_tuple.1 ++ leBytes 1 v.to_tuple.2)) := by
  intro buf v n h
  unfold Lib.Attribute.try_from_ctx at h
  cases buf with
  | nil => exact Except.noConfusion h
  | cons b rest =>
    cases rest with
    | nil => exact Except.noConfusion h
    | cons c rest₂ =>
      simp only [List.get?] at h
      split at h <;> rename_i heq₁ <;>
        first
        | exact Except.noConfusion h
        | (split at h <;> rename_i heq₂ <;>
            first
            | exact Except.noConfusion h
            | · injection h with h'
                injection h' with hv hn
                subst hv
                subst hn
                refine ⟨by simp, ?_⟩
                show Except.ok (leBytes 1 _ ++ leBytes 1 _) = _
                rw [show List.take 2 (b :: c :: rest₂) = [b, c] from rfl]
                exact congrArg Except.ok (leBytes_pair
                  (by simp only [Lib.Attribute.to_tuple]; omega)
                  (by simp only [Lib.Attribute.to_tuple]; omega)))

theorem encryptionVariant_srt :
    SRT Lib.EncryptionVariant.try_from_ctx (fun v => .ok v.write) := by
  intro buf v n h
  unfold Lib.EncryptionVariant.try_from_ctx runP at h
  obtain ⟨enc, o₁, h₁, h⟩ := bind_ok h
  obtain ⟨ho₁, hle, hlt, hbytes⟩ := greadLE_ok (Nat.zero_le _) h₁
  rw [extract_eq_take] at hbytes
  by_cases h₂ : enc = 0x4E4F4E45
  · rw [if_pos h₂, pureP_eq] at h
    injection h with h'
    injection h' with hv hn
    subst hv
    subst hn
    refine ⟨by omega, ?_⟩
    show Except.ok (leBytes 4 0x4E4F4E45) = _
    rw [← h₂, hbytes]
  · rw [if_neg h₂] at h
    by_cases h₃ : enc = 0x534D504C
    · rw [if_pos h₃, pureP_eq] at h
      injection h with h'
      injection h' with hv hn
      subst hv
      subst hn
      refine ⟨by omega, ?_⟩
      show Except.ok (leBytes 4 0x534D504C) = _
      rw [← h₃, hbytes]
    · rw [if_neg h₃] at h
      by_cases h₄ : enc = 0x4B595052
      · rw [if_pos h₄, pureP_eq] at h
        injection h with h'
        injection h' with hv hn
        subst hv
        subst hn
        refine ⟨by omega, ?_⟩
        show Except.ok (leBytes 4 0x4B595052) = _
        rw [← h₄, hbytes]
      · rw [if_neg h₄] at h
        exact Except.noConfusion h

/-!
PRT lemmas for the shared `ParserM` primitives.
-/

theorem epure_ok {ε α : Type} (a : α) : (pure a : Except ε α) = Except.ok a := rfl

theorem u8_try_into_ok {v : Nat} (h : v < 2 ^ 8) : u8_try_into v = .ok v := by
  unfold u8_try_into
  rw [if_pos h]

theorem u16_try_into_ok {v : Nat} (h : v < 2 ^ 16) : u16_try_into v = .ok v := by
  unfold u16_try_into
  rw [if_pos h]

theorem u32_try_into_ok {v : Nat} (h : v < 2 ^ 32) : u32_try_into v = .ok v := by
  unfold u32_try_into
  rw [if_pos h]

theorem greadLE_prt (w : Nat) : PRT (greadLE w) (fun v => .ok (leBytes w v)) := by
  intro buf off v off' hoff h
  obtain ⟨h₁, h₂, _, h₄⟩ := greadLE_ok hoff h
  exact ⟨by omega, h₂, congrArg Except.ok h₄⟩

theorem pgread_prt {α : Type} {sub : Bytes → PResult (α × Nat)} {E : α → WResult}
    (hs : SRT sub E) : PRT (pgread sub) E := by
  intro buf off v off' hoff h
  unfold pgread at h
  cases hsub : sub (buf.drop off) with
  | ok r =>
    obtain ⟨v₀, sz⟩ := r
    rw [hsub] at h
    injection h with h'
    injection h' with hv ho
    subst hv
    obtain ⟨hn, hE⟩ := hs _ _ _ hsub
    rw [List.length_drop] at hn
    refine ⟨by omega, by omega, ?_⟩
    rw [hE]
    subst ho
    unfold extract
    congr 2
    omega
  | error e =>
    rw [hsub] at h
    exact Except.noConfusion h

theorem read_bool_strict_prt :
    PRT Strict.read_bool_strict (fun b => .ok (leBytes 1 (if b then 1 else 0))) := by
  intro buf off v off' hoff h
  unfold Strict.read_bool_strict at h
  obtain ⟨b, o₁, h₁, h⟩ := bind_ok h
  obtain ⟨ho₁, hle, hlt, hbytes⟩ := greadLE_ok hoff h₁
  by_cases hb₀ : b = 0
  · rw [if_pos hb₀, pureP_eq] at h
    injection h with h'
    injection h' with hv hn
    subst hv
    subst hn
    refine ⟨by omega, hle, ?_⟩
    show Except.ok (leBytes 1 0) = _
    rw [← hbytes, hb₀]
  · rw [if_neg hb₀] at h
    by_cases hb₁ : b = 1
    · rw [if_pos hb₁, pureP_eq] at h
      injection h with h'
      injection h' with hv hn
      subst hv
      subst hn
      refine ⟨by omega, hle, ?_⟩
      show Except.ok (leBytes 1 1) = _
      rw [← hbytes, hb₁]
    · rw [if_neg hb₁] at h
      exact Except.noConfusion h

theorem read_string_prt : PRT read_string write_string := by
  intro buf off v off' hoff h
  unfold read_string at h
  obtain ⟨len, o₁, h₁, h⟩ := bind_ok h
  obtain ⟨s, o₂, h₂, h⟩ := bind_ok h
  obtain ⟨u, o₃, h₃, h⟩ := bind_ok h
  rw [pureP_eq] at h
  injection h with h'
  injection h' with hv hn
  subst hv
  subst hn
  obtain ⟨ho₁, hle₁, hlt, hb₁⟩ := greadLE_ok hoff h₁
  obtain ⟨ho₂, hle₂, hslen, hb₂⟩ := greadBytes_ok hle₁ h₂
  obtain ⟨_, ho₃⟩ := pguard_ok h₃
  subst ho₃
  refine ⟨by omega, hle₂, ?_⟩
  unfold write_string
  rw [if_pos (show s.length < 2 ^ 32 by
    rw [hslen]; exact lt_of_lt_of_eq hlt (by norm_num))]
  rw [hslen, hb₁, hb₂, extract_append (by omega) (by omega)]

theorem optional_read_strict_ok {α : Type} {p : ParserM α} {E : α → WResult}
    (hp : PRT p E) :
    PRT (Strict.optional_read_strict p) (fun o => optional_write o E) := by
  intro buf off v off' hoff h
  unfold Strict.optional_read_strict at h
  obtain ⟨has, o₁, h₁, h⟩ := bind_ok h
  obtain ⟨ho₁a, ho₁b, hb₁⟩ := read_bool_strict_prt buf off has o₁ hoff h₁
  injection hb₁ with hb₁'
  cases has with
  | false =>
    rw [if_neg (by simp), pureP_eq] at h
    injection h with h'
    injection h' with hv hn
    subst hv
    subst hn
    refine ⟨ho₁a, ho₁b, ?_⟩
    show Except.ok [(0 : Byte)] = _
    rw [← hb₁']
    decide
  | true =>
    rw [if_pos rfl] at h
    obtain ⟨a, o₂, h₂, h⟩ := bind_ok h
    rw [pureP_eq] at h
    injection h with h'
    injection h' with hv hn
    subst hv
    subst hn
    obtain ⟨ho₂a, ho₂b, hb₂⟩ := hp buf o₁ a o₂ ho₁b h₂
    refine ⟨by omega, ho₂b, ?_⟩
    show (E a >>= fun bs => pure ((1 : Byte) :: bs)) = _
    rw [ebind_ok_step hb₂]
    show Except.ok ((1 : Byte) :: extract buf o₁ o₂) = _
    rw [← extract_append ho₁a (by omega), ← hb₁']
    exact congrArg Except.ok (by
      rw [show leBytes 1 (if (true : Bool) then 1 else 0) = [(1 : Byte)] from by decide,
        List.singleton_append])

theorem table_loop_strict_ok {κ ν : Type} [DecidableEq κ] {pk : ParserM κ}
    {pv : ParserM ν} {EK : κ → WResult} {EV : ν → WResult}
    (hk : PRT pk EK) (hv : PRT pv EV) :
    ∀ (nn : Nat) (acc : List (κ × ν)) (buf : Bytes) (off : Nat)
      (es : List (κ × ν)) (off' : Nat), off ≤ buf.length →
      Strict.table_loop_strict pk pv nn acc buf off = .ok (es, off') →
      ∃ suf, es = acc ++ suf ∧ suf.length = nn ∧ off ≤ off' ∧ off' ≤ buf.length ∧
        write_table EK EV suf = .ok (extract buf off off') := by
  intro nn
  induction nn with
  | zero =>
    intro acc buf off es off' hoff h
    unfold Strict.table_loop_strict at h
    rw [pureP_eq] at h
    injection h with h'
    injection h' with hv₀ hn₀
    subst hv₀
    subst hn₀
    refine ⟨[], by simp, rfl, le_refl _, hoff, ?_⟩
    show Except.ok [] = _
    rw [extract_nil]
  | succ m ih =>
    intro acc buf off es off' hoff h
    unfold Strict.table_loop_strict at h
    obtain ⟨k, o₁, h₁, h⟩ := bind_ok h
    obtain ⟨w, o₂, h₂, h⟩ := bind_ok h
    obtain ⟨ho₁a, ho₁b, hEk⟩ := hk buf off k o₁ hoff h₁
    obtain ⟨ho₂a, ho₂b, hEv⟩ := hv buf o₁ w o₂ ho₁b h₂
    by_cases hmem : k ∈ acc.map Prod.fst
    · rw [if_pos hmem] at h
      exact Except.noConfusion h
    · rw [if_neg hmem] at h
      obtain ⟨suf, hes, hlen, ho₃a, ho₃b, hw⟩ := ih (acc ++ [(k, w)]) buf o₂ es off' ho₂b h
      refine ⟨(k, w) :: suf, by rw [hes, List.append_assoc]; rfl, by simp [hlen],
        by omega, ho₃b, ?_⟩
      show (EK k >>= fun bk => EV w >>= fun bv =>
        write_table EK EV suf >>= fun brest => pure (bk ++ bv ++ brest)) = _
      rw [ebind_ok_step hEk, ebind_ok_step hEv, ebind_ok_step hw, epure_ok]
      rw [← extract_append (show off ≤ o₁ from ho₁a) (show o₁ ≤ off' by omega)]
      rw [← extract_append (show o₁ ≤ o₂ from ho₂a) (show o₂ ≤ off' from ho₃a)]
      simp only [List.append_assoc]

theorem customTypeInfo_srt :
    SRT Lib.CustomTypeInfo.try_from_ctx Lib.CustomTypeInfo.write := by
  intro buf v n h
  unfold Lib.CustomTypeInfo.try_from_ctx runP at h
  obtain ⟨nm, o₁, h₁, h⟩ := bind_ok h
  obtain ⟨sz, o₂, h₂, h⟩ := bind_ok h
  rw [pureP_eq] at h
  injection h with h'
  injection h' with hv hn
  subst hv
  subst hn
  obtain ⟨ho₁a, ho₁b, hE₁⟩ := read_string_prt buf 0 nm o₁ (Nat.zero_le _) h₁
  obtain ⟨ho₂eq, ho₂b, _, hE₂⟩ := greadLE_ok ho₁b h₂
  refine ⟨ho₂b, ?_⟩
  unfold Lib.CustomTypeInfo.write
  dsimp only
  rw [ebind_ok_step hE₁, epure_ok, hE₂]
  rw [← extract_eq_take]
  rw [← extract_append (Nat.zero_le _) (show o₁ ≤ o₂ by omega)]

theorem pss_srt :
    SRT Lib.PlatformShaderStage.try_from_ctx Lib.PlatformShaderStage.write := by
  intro buf v n h
  unfold Lib.PlatformShaderStage.try_from_ctx runP at h
  obtain ⟨sn, o₁, h₁, h⟩ := bind_ok h
  obtain ⟨pn, o₂, h₂, h⟩ := bind_ok h
  obtain ⟨st, o₃, h₃, h⟩ := bind_ok h
  obtain ⟨pf, o₄, h₄, h⟩ := bind_ok h
  rw [pureP_eq] at h
  injection h with h'
  injection h' with hv hn
  subst hv
  subst hn
  obtain ⟨ho₁a, ho₁b, hE₁⟩ := read_string_prt buf 0 sn o₁ (Nat.zero_le _) h₁
  obtain ⟨ho₂a, ho₂b, hE₂⟩ := read_string_prt buf o₁ pn o₂ ho₁b h₂
  obtain ⟨ho₃a, ho₃b, hE₃⟩ := pgread_prt shaderStage_srt buf o₂ st o₃ ho₂b h₃
  obtain ⟨ho₄a, ho₄b, hE₄⟩ := pgread_prt shaderCodePlatform_srt buf o₃ pf o₄ ho₃b h₄
  injection hE₃ with he₃
  injection hE₄ with he₄
  refine ⟨ho₄b, ?_⟩
  unfold Lib.PlatformShaderStage.write
  dsimp only
  rw [ebind_ok_step hE₁, ebind_ok_step hE₂, epure_ok, he₃, he₄]
  rw [← extract_eq_take]
  rw [← extract_append (Nat.zero_le _) (show o₁ ≤ o₄ by omega)]
  rw [← extract_append (show o₁ ≤ o₂ from ho₂a) (show o₂ ≤ o₄ by omega)]
  rw [← extract_append (show o₂ ≤ o₃ from ho₃a) (show o₃ ≤ o₄ from ho₄a)]
  simp only [List.append_assoc]

theorem shaderInput_srt : SRT Strict.shaderInput Lib.ShaderInput.write := by
  intro buf v n h
  unfold Strict.shaderInput runP at h
  obtain ⟨it, o₁, h₁, h⟩ := bind_ok h
  obtain ⟨at₀, o₂, h₂, h⟩ := bind_ok h
  obtain ⟨ipi, o₃, h₃, h⟩ := bind_ok h
  obtain ⟨pc, o₄, h₄, h⟩ := bind_ok h
  obtain ⟨ic, o₅, h₅, h⟩ := bind_ok h
  rw [pureP_eq] at h
  injection h with h'
  injection h' with hv hn
  subst hv
  subst hn
  obtain ⟨ho₁a, ho₁b, hE₁⟩ := pgread_prt shaderInputType_srt buf 0 it o₁ (Nat.zero_le _) h₁
  obtain ⟨ho₂a, ho₂b, hE₂⟩ := pgread_prt attribute_srt buf o₁ at₀ o₂ ho₁b h₂
  obtain ⟨ho₃a, ho₃b, hE₃⟩ := read_bool_strict_prt buf o₂ ipi o₃ ho₂b h₃
  obtain ⟨ho₄a, ho₄b, hE₄⟩ :=
    optional_read_strict_ok (pgread_prt precisionConstraint_srt) buf o₃ pc o₄ ho₃b h₄
  obtain ⟨ho₅a, ho₅b, hE₅⟩ :=
    optional_read_strict_ok (pgread_prt interpolationConstraint_srt) buf o₄ ic o₅ ho₄b h₅
  injection hE₁ with he₁
  injection hE₂ with he₂
  injection hE₃ with he₃
  refine ⟨ho₅b, ?_⟩
  unfold Lib.ShaderInput.write
  dsimp only
  rcases hto : Lib.Attribute.to_tuple at₀ with ⟨ti, ts⟩
  rw [hto] at he₂
  dsimp only at he₂ ⊢
  rw [ebind_ok_step hE₄, ebind_ok_step hE₅, epure_ok, he₁, he₃]
  rw [← extract_eq_take]
  rw [← extract_append (Nat.zero_le _) (show o₁ ≤ o₅ by omega)]
  rw [← extract_append (show o₁ ≤ o₂ from ho₂a) (show o₂ ≤ o₅ by omega)]
  rw [← extract_append (show o₂ ≤ o₃ from ho₃a) (show o₃ ≤ o₅ by omega)]
  rw [← extract_append (show o₃ ≤ o₄ from ho₄a) (show o₄ ≤ o₅ from ho₅a)]
  rw [← he₂]
  simp only [List.append_assoc]

theorem propertyField_srt : SRT Strict.propertyField Lib.PropertyField.write := by
  intro buf v n h
  unfold Strict.propertyField runP at h
  obtain ⟨ft, o₁, h₁, h⟩ := bind_ok h
  obtain ⟨ho₁a, ho₁b, hE₁⟩ := pgread_prt propertyType_srt buf 0 ft o₁ (Nat.zero_le _) h₁
  injection hE₁ with he₁
  by_cases hext : ft = Lib.PropertyType.External
  · rw [if_pos hext] at h
    exact Except.noConfusion h
  · rw [if_neg hext] at h
    obtain ⟨num, o₂, h₂, h⟩ := bind_ok h
    obtain ⟨hd, o₃, h₃, h⟩ := bind_ok h
    obtain ⟨pl, o₄, h₄, h⟩ := bind_ok h
    obtain ⟨vd, md⟩ := pl
    dsimp only at h
    rw [pureP_eq] at h
    injection h with h'
    injection h' with hv hn
    subst hv
    subst hn
    obtain ⟨ho₂eq, ho₂b, hlt₂, he₂⟩ := greadLE_ok ho₁b h₂
    obtain ⟨ho₃a, ho₃b, hE₃⟩ := read_bool_strict_prt buf o₂ hd o₃ ho₂b h₃
    injection hE₃ with he₃
    unfold Lib.PropertyField.payload_read at h₄
    cases ft with
    | External => exact absurd rfl hext
    | Vec4 =>
      cases hd with
      | false =>
        rw [if_neg (by simp), pureP_eq] at h₄
        injection h₄ with h₄'
        injection h₄' with hvd ho₄
        injection hvd with hvd₁ hvd₂
        subst hvd₁
        subst hvd₂
        subst ho₄
        refine ⟨ho₃b, ?_⟩
        unfold Lib.PropertyField.write
        dsimp only
        rw [if_pos hext, epure_ok, he₁, he₂]
        rw [← extract_eq_take]
        rw [← extract_append (Nat.zero_le _) (show o₁ ≤ o₃ by omega)]
        rw [← extract_append (show o₁ ≤ o₂ by omega) (show o₂ ≤ o₃ from ho₃a)]
        rw [show extract buf o₂ o₃ = [(0 : Byte)] by rw [← he₃]; decide]
        simp only [List.append_assoc]
      | true =>
        rw [if_pos rfl] at h₄
        obtain ⟨d, o₄', hs, h₄⟩ := bind_ok h₄
        rw [pureP_eq] at h₄
        injection h₄ with h₄'
        injection h₄' with hvd ho₄
        injection hvd with hvd₁ hvd₂
        subst hvd₁
        subst hvd₂
        subst ho₄
        obtain ⟨ho₄eq, ho₄b, hdlen, hdval⟩ := sliceIndex_ok ho₃b hs
        refine ⟨ho₄b, ?_⟩
        unfold Lib.PropertyField.write
        dsimp only
        rw [if_pos hext, epure_ok, he₁, he₂, hdval]
        rw [← extract_eq_take]
        rw [← extract_append (Nat.zero_le _) (show o₁ ≤ o₄' by omega)]
        rw [← extract_append (show o₁ ≤ o₂ by omega) (show o₂ ≤ o₄' by omega)]
        rw [← extract_append (show o₂ ≤ o₃ from ho₃a) (show o₃ ≤ o₄' by omega)]
        rw [show extract buf o₂ o₃ = [(1 : Byte)] by rw [← he₃]; decide]
        simp only [List.append_assoc, List.singleton_append]
    | Mat3 =>
      cases hd with
      | false =>
        rw [if_neg (by simp), pureP_eq] at h₄
        injection h₄ with h₄'
        injection h₄' with hvd ho₄
        injection hvd with hvd₁ hvd₂
        subst hvd₁
        subst hvd₂
        subst ho₄
        refine ⟨ho₃b, ?_⟩
        unfold Lib.PropertyField.write
        dsimp only
        rw [if_pos hext, epure_ok, he₁, he₂]
        rw [← extract_eq_take]
        rw [← extract_append (Nat.zero_le _) (show o₁ ≤ o₃ by omega)]
        rw [← extract_append (show o₁ ≤ o₂ by omega) (show o₂ ≤ o₃ from ho₃a)]
        rw [show extract buf o₂ o₃ = [(0 : Byte)] by rw [← he₃]; decide]
        simp only [List.append_assoc]
      | true =>
        rw [if_pos rfl] at h₄
        obtain ⟨d, o₄', hs, h₄⟩ := bind_ok h₄
        rw [pureP_eq] at h₄
        injection h₄ with h₄'
        injection h₄' with hvd ho₄
        injection hvd with hvd₁ hvd₂
        subst hvd₁
        subst hvd₂
        subst ho₄
        obtain ⟨ho₄eq, ho₄b, hdlen, hdval⟩ := sliceIndex_ok ho₃b hs
        refine ⟨ho₄b, ?_⟩
        unfold Lib.PropertyField.write
        dsimp only
        rw [if_pos hext, epure_ok, he₁, he₂, hdval]
        rw [← extract_eq_take]
        rw [← extract_append (Nat.zero_le _) (show o₁ ≤ o₄' by omega)]
        rw [← extract_append (show o₁ ≤ o₂ by omega) (show o₂ ≤ o₄' by omega)]
        rw [← extract_append (show o₂ ≤ o₃ from ho₃a) (show o₃ ≤ o₄' by omega)]
        rw [show extract buf o₂ o₃ = [(1 : Byte)] by rw [← he₃]; decide]
        simp only [List.append_assoc, List.singleton_append]
    | Mat4 =>
      cases hd with
      | false =>
        rw [if_neg (by simp), pureP_eq] at h₄
        injection h₄ with h₄'
        injection h₄' with hvd ho₄
        injection hvd with hvd₁ hvd₂
        subst hvd₁
        subst hvd₂
        subst ho₄
        refine ⟨ho₃b, ?_⟩
        unfold Lib.PropertyField.write
        dsimp only
        rw [if_pos hext, epure_ok, he₁, he₂]
        rw [← extract_eq_take]
        rw [← extract_append (Nat.zero_le _) (show o₁ ≤ o₃ by omega)]
        rw [← extract_append (show o₁ ≤ o₂ by omega) (show o₂ ≤ o₃ from ho₃a)]
        rw [show extract buf o₂ o₃ = [(0 : Byte)] by rw [← he₃]; decide]
        simp only [List.append_assoc]
      | true =>
        rw [if_pos rfl] at h₄
        obtain ⟨d, o₄', hs, h₄⟩ := bind_ok h₄
        rw [pureP_eq] at h₄
        injection h₄ with h₄'
        injection h₄' with hvd ho₄
        injection hvd with hvd₁ hvd₂
        subst hvd₁
        subst hvd₂
        subst ho₄
        obtain ⟨ho₄eq, ho₄b, hdlen, hdval⟩ := sliceIndex_ok ho₃b hs
        refine ⟨ho₄b, ?_⟩
        unfold Lib.PropertyField.write
        dsimp only
        rw [if_pos hext, epure_ok, he₁, he₂, hdval]
        rw [← extract_eq_take]
        rw [← extract_append (Nat.zero_le _) (show o₁ ≤ o₄' by omega)]
        rw [← extract_append (show o₁ ≤ o₂ by omega) (show o₂ ≤ o₄' by omega)]
        rw [← extract_append (show o₂ ≤ o₃ from ho₃a) (show o₃ ≤ o₄' by omega)]
        rw [show extract buf o₂ o₃ = [(1 : Byte)] by rw [← he₃]; decide]
        simp only [List.append_assoc, List.singleton_append]

theorem table_loop_strict_nil_ok {κ ν : Type} [DecidableEq κ] {pk : ParserM κ}
    {pv : ParserM ν} {EK : κ → WResult} {EV : ν → WResult}
    (hk : PRT pk EK) (hv : PRT pv EV) {nn : Nat} {buf : Bytes} {off : Nat}
    {es : List (κ × ν)} {off' : Nat} (hoff : off ≤ buf.length)
    (h : Strict.table_loop_strict pk pv nn [] buf off = .ok (es, off')) :
    es.length = nn ∧ off ≤ off' ∧ off' ≤ buf.length ∧
      write_table EK EV es = .ok (extract buf off off') := by
  obtain ⟨suf, hes, hlen, ha, hb, hw⟩ :=
    table_loop_strict_ok hk hv nn [] buf off es off' hoff h
  simp only [List.nil_append] at hes
  subst hes
  exact ⟨hlen, ha, hb, hw⟩

theorem shaderCode_srt : SRT Strict.shaderCode Lib.ShaderCode.write := by
  intro buf v n h
  unfold Strict.shaderCode runP at h
  obtain ⟨cnt, o₁, h₁, h⟩ := bind_ok h
  obtain ⟨si, o₂, h₂, h⟩ := bind_ok h
  obtain ⟨hash, o₃, h₃, h⟩ := bind_ok h
  obtain ⟨bl, o₄, h₄, h⟩ := bind_ok h
  obtain ⟨data, o₅, h₅, h⟩ := bind_ok h
  rw [pureP_eq] at h
  injection h with h'
  injection h' with hv hn
  subst hv
  subst hn
  obtain ⟨ho₁eq, ho₁b, hlt₁, he₁⟩ := greadLE_ok (Nat.zero_le _) h₁
  obtain ⟨hslen, ho₂a, ho₂b, hT⟩ :=
    table_loop_strict_nil_ok read_string_prt (pgread_prt shaderInput_srt) ho₁b h₂
  obtain ⟨ho₃eq, ho₃b, hlt₃, he₃⟩ := greadLE_ok ho₂b h₃
  obtain ⟨ho₄eq, ho₄b, hlt₄, he₄⟩ := greadLE_ok ho₃b h₄
  obtain ⟨ho₅eq, ho₅b, hdlen, hdval⟩ := sliceIndex_ok ho₄b h₅
  refine ⟨ho₅b, ?_⟩
  unfold Lib.ShaderCode.write
  dsimp only
  rw [ebind_ok_step (u16_try_into_ok (show si.length < 2 ^ 16 by
    rw [hslen]; exact lt_of_lt_of_eq hlt₁ (by norm_num)))]
  rw [ebind_ok_step hT]
  rw [ebind_ok_step (u32_try_into_ok (show data.length < 2 ^ 32 by
    rw [hdlen]; exact lt_of_lt_of_eq hlt₄ (by norm_num)))]
  rw [epure_ok, hslen, hdlen, he₁, he₃, he₄, hdval]
  rw [← extract_eq_take]
  rw [← extract_append (Nat.zero_le _) (show o₁ ≤ o₅ by omega)]
  rw [← extract_append (show o₁ ≤ o₂ from ho₂a) (show o₂ ≤ o₅ by omega)]
  rw [← extract_append (show o₂ ≤ o₃ by omega) (show o₃ ≤ o₅ by omega)]
  rw [← extract_append (show o₃ ≤ o₄ by omega) (show o₄ ≤ o₅ by omega)]
  simp only [List.append_assoc]

theorem variant_srt : SRT Strict.variant Lib.Variant.write := by
  intro buf v n h
  unfold Strict.variant runP at h
  obtain ⟨sup, o₁, h₁, h⟩ := bind_ok h
  obtain ⟨fc, o₂, h₂, h⟩ := bind_ok h
  obtain ⟨sc, o₃, h₃, h⟩ := bind_ok h
  obtain ⟨flags, o₄, h₄, h⟩ := bind_ok h
  obtain ⟨codes, o₅, h₅, h⟩ := bind_ok h
  rw [pureP_eq] at h
  injection h with h'
  injection h' with hv hn
  subst hv
  subst hn
  obtain ⟨ho₁a, ho₁b, hE₁⟩ := read_bool_strict_prt buf 0 sup o₁ (Nat.zero_le _) h₁
  injection hE₁ with he₁
  obtain ⟨ho₂eq, ho₂b, hlt₂, he₂⟩ := greadLE_ok ho₁b h₂
  obtain ⟨ho₃eq, ho₃b, hlt₃, he₃⟩ := greadLE_ok ho₂b h₃
  obtain ⟨hflen, ho₄a, ho₄b, hF⟩ :=
    table_loop_strict_nil_ok read_string_prt read_string_prt ho₃b h₄
  obtain ⟨hclen, ho₅a, ho₅b, hC⟩ :=
    table_loop_strict_nil_ok (pgread_prt pss_srt) (pgread_prt shaderCode_srt) ho₄b h₅
  refine ⟨ho₅b, ?_⟩
  unfold Lib.Variant.write
  dsimp only
  rw [ebind_ok_step (u16_try_into_ok (show flags.length < 2 ^ 16 by
    rw [hflen]; exact lt_of_lt_of_eq hlt₂ (by norm_num)))]
  rw [ebind_ok_step (u16_try_into_ok (show codes.length < 2 ^ 16 by
    rw [hclen]; exact lt_of_lt_of_eq hlt₃ (by norm_num)))]
  rw [ebind_ok_step hF, ebind_ok_step hC, epure_ok]
  rw [hflen, hclen, he₁, he₂, he₃]
  rw [← extract_eq_take]
  rw [← extract_append (Nat.zero_le _) (show o₁ ≤ o₅ by omega)]
  rw [← extract_append (show o₁ ≤ o₂ by omega) (show o₂ ≤ o₅ by omega)]
  rw [← extract_append (show o₂ ≤ o₃ by omega) (show o₃ ≤ o₅ by omega)]
  rw [← extract_append (show o₃ ≤ o₄ from ho₄a) (show o₄ ≤ o₅ from ho₅a)]
  simp only [List.append_assoc]

theorem variant_loop_strict_ok :
    ∀ (nn : Nat) (buf : Bytes) (off : Nat) (vs : List Lib.Variant) (off' : Nat),
      off ≤ buf.length → Strict.variant_loop_strict nn buf off = .ok (vs, off') →
      vs.length = nn ∧ off ≤ off' ∧ off' ≤ buf.length ∧
        write_list Lib.Variant.write vs = .ok (extract buf off off') := by
  intro nn
  induction nn with
  | zero =>
    intro buf off vs off' hoff h
    unfold Strict.variant_loop_strict at h
    rw [pureP_eq] at h
    injection h with h'
    injection h' with hv hn
    subst hv
    subst hn
    refine ⟨rfl, le_refl _, hoff, ?_⟩
    show Except.ok [] = _
    rw [extract_nil]
  | succ m ih =>
    intro buf off vs off' hoff h
    unfold Strict.variant_loop_strict at h
    obtain ⟨v₀, o₁, h₁, h⟩ := bind_ok h
    obtain ⟨rest, o₂, h₂, h⟩ := bind_ok h
    rw [pureP_eq] at h
    injection h with h'
    injection h' with hv hn
    subst hv
    subst hn
    obtain ⟨ho₁a, ho₁b, hE₁⟩ := pgread_prt variant_srt buf off v₀ o₁ hoff h₁
    obtain ⟨hlen, ho₂a, ho₂b, hW⟩ := ih buf o₁ rest o₂ ho₁b h₂
    refine ⟨by simp [hlen], by omega, ho₂b, ?_⟩
    show (Lib.Variant.write v₀ >>= fun b =>
      write_list Lib.Variant.write rest >>= fun bs => pure (b ++ bs)) = _
    rw [ebind_ok_step hE₁, ebind_ok_step hW, epure_ok]
    rw [← extract_append ho₁a ho₂a]

theorem pass_srt (ctx : Lib.MinecraftVersion) :
    SRT (Strict.pass ctx) (fun p => Lib.Pass.write p ctx) := by
  intro buf v n h
  unfold Strict.pass runP at h
  obtain ⟨bs, o₁, h₁, h⟩ := bind_ok h
  by_cases hctx : ctx = Lib.MinecraftVersion.V1_18_30
  · rw [if_pos hctx] at h₁
    exfalso
    unfold bitset_peek_1_18_30 at h₁
    obtain ⟨b, oa, ha, h₁⟩ := bind_ok h₁
    obtain ⟨hoaeq, _, _, _⟩ := greadLE_ok (Nat.zero_le _) ha
    obtain ⟨u, ob, hb, h₁⟩ := bind_ok h₁
    unfold rewind4 at hb
    rw [if_pos (by omega)] at hb
    exact Except.noConfusion hb
  · rw [if_neg hctx] at h₁
    obtain ⟨ho₁a, ho₁b, hE₁⟩ := read_string_prt buf 0 bs o₁ (Nat.zero_le _) h₁
    by_cases hbe : bs.isEmpty = true
    · rw [if_pos hbe] at h
      exact Except.noConfusion h
    · rw [if_neg hbe] at h
      obtain ⟨fb, o₂, h₂, h⟩ := bind_ok h
      obtain ⟨bm, o₃, h₃, h⟩ := bind_ok h
      obtain ⟨fdc, o₄, h₄, h⟩ := bind_ok h
      obtain ⟨dfv, o₅, h₅, h⟩ := bind_ok h
      obtain ⟨vc, o₆, h₆, h⟩ := bind_ok h
      obtain ⟨vars, o₇, h₇, h⟩ := bind_ok h
      rw [pureP_eq] at h
      injection h with h'
      injection h' with hv hn
      subst hv
      subst hn
      obtain ⟨ho₂a, ho₂b, hE₂⟩ := read_string_prt buf o₁ fb o₂ ho₁b h₂
      obtain ⟨ho₃a, ho₃b, hE₃⟩ :=
        optional_read_strict_ok (pgread_prt blendMode_srt) buf o₂ bm o₃ ho₂b h₃
      obtain ⟨ho₄eq, ho₄b, hlt₄, he₄⟩ := greadLE_ok ho₃b h₄
      obtain ⟨hdlen, ho₅a, ho₅b, hDF⟩ :=
        table_loop_strict_nil_ok read_string_prt read_string_prt ho₄b h₅
      obtain ⟨ho₆eq, ho₆b, hlt₆, he₆⟩ := greadLE_ok ho₅b h₆
      obtain ⟨hvlen, ho₇a, ho₇b, hV⟩ := variant_loop_strict_ok vc buf o₆ vars o₇ ho₆b h₇
      refine ⟨ho₇b, ?_⟩
      unfold Lib.Pass.write
      dsimp only
      rw [if_neg hbe]
      rw [ebind_ok_step hE₁, ebind_ok_step hE₂, ebind_ok_step hE₃]
      rw [ebind_ok_step (u16_try_into_ok (show dfv.length < 2 ^ 16 by
        rw [hdlen]; exact lt_of_lt_of_eq hlt₄ (by norm_num)))]
      rw [ebind_ok_step hDF]
      rw [ebind_ok_step (u16_try_into_ok (show vars.length < 2 ^ 16 by
        rw [hvlen]; exact lt_of_lt_of_eq hlt₆ (by norm_num)))]
      rw [ebind_ok_step hV, epure_ok]
      rw [hdlen, hvlen, he₄, he₆]
      rw [← extract_eq_take]
      rw [← extract_append (Nat.zero_le _) (show o₁ ≤ o₇ by omega)]
      rw [← extract_append (show o₁ ≤ o₂ from ho₂a) (show o₂ ≤ o₇ by omega)]
      rw [← extract_append (show o₂ ≤ o₃ from ho₃a) (show o₃ ≤ o₇ by omega)]
      rw [← extract_append (show o₃ ≤ o₄ by omega) (show o₄ ≤ o₇ by omega)]
      rw [← extract_append (show o₄ ≤ o₅ from ho₅a) (show o₅ ≤ o₇ by omega)]
      rw [← extract_append (show o₅ ≤ o₆ by omega) (show o₆ ≤ o₇ from ho₇a)]
      simp only [List.append_assoc]

theorem samplerDefinition_srt (ctx : Lib.MinecraftVersion) :
    SRT (Strict.samplerDefinition ctx) (fun s => Lib.SamplerDefinition.write s ctx) := by
  intro buf v n h
  unfold Strict.samplerDefinition runP at h
  obtain ⟨reg, o₁, h₁, h⟩ := bind_ok h
  obtain ⟨acc, o₂, h₂, h⟩ := bind_ok h
  obtain ⟨prec, o₃, h₃, h⟩ := bind_ok h
  obtain ⟨aua, o₄, h₄, h⟩ := bind_ok h
  obtain ⟨st, o₅, h₅, h⟩ := bind_ok h
  obtain ⟨tf, o₆, h₆, h⟩ := bind_ok h
  obtain ⟨ui, o₇, h₇, h⟩ := bind_ok h
  obtain ⟨ub0, o₈, h₈, h⟩ := bind_ok h
  obtain ⟨ub, o₉, h₉, h⟩ := bind_ok h
  obtain ⟨dt, o₁₀, h₁₀, h⟩ := bind_ok h
  obtain ⟨us, o₁₁, h₁₁, h⟩ := bind_ok h
  obtain ⟨cti, o₁₂, h₁₂, h⟩ := bind_ok h
  rw [pureP_eq] at h
  injection h with h'
  injection h' with hv hn
  subst hv
  subst hn
  by_cases hctx : ctx = Lib.MinecraftVersion.V1_18_30
  · subst hctx
    rw [if_pos rfl] at h₁
    obtain ⟨ho₁eq, ho₁b, hlt₁, he₁⟩ := greadLE_ok (Nat.zero_le _) h₁
    obtain ⟨ho₂a, ho₂b, hEa⟩ := pgread_prt samplerAccess_srt buf o₁ acc o₂ ho₁b h₂
    injection hEa with hea
    obtain ⟨ho₃eq, ho₃b, hlt₃, he₃⟩ := greadLE_ok ho₂b h₃
    obtain ⟨ho₄eq, ho₄b, hlt₄, he₄⟩ := greadLE_ok ho₃b h₄
    obtain ⟨ho₅a, ho₅b, hEs⟩ := pgread_prt samplerType_srt buf o₄ st o₅ ho₄b h₅
    injection hEs with hes
    obtain ⟨ho₆a, ho₆b, hE₆⟩ := read_string_prt buf o₅ tf o₆ ho₅b h₆
    obtain ⟨ho₇eq, ho₇b, hlt₇, he₇⟩ := greadLE_ok ho₆b h₇
    rw [if_pos (lt_of_lt_of_eq hlt₁ (by norm_num)), pureP_eq] at h₈
    injection h₈ with h₈'
    injection h₈' with hub0 ho₈
    subst hub0
    subst ho₈
    rw [if_neg (by decide), pureP_eq] at h₉
    injection h₉ with h₉'
    injection h₉' with hub ho₉
    subst hub
    subst ho₉
    obtain ⟨ho₁₀a, ho₁₀b, hE₁₀⟩ :=
      optional_read_strict_ok read_string_prt buf o₇ dt o₁₀ ho₇b h₁₀
    rw [if_neg (by decide), pureP_eq] at h₁₁
    injection h₁₁ with h₁₁'
    injection h₁₁' with hus ho₁₁
    subst hus
    subst ho₁₁
    obtain ⟨ho₁₂a, ho₁₂b, hE₁₂⟩ :=
      optional_read_strict_ok (pgread_prt customTypeInfo_srt) buf o₁₀ cti o₁₂ ho₁₀b h₁₂
    refine ⟨ho₁₂b, ?_⟩
    unfold Lib.SamplerDefinition.write
    dsimp only
    rw [if_pos rfl]
    rw [ebind_ok_step (u8_try_into_ok (lt_of_lt_of_eq hlt₁ (by norm_num)))]
    rw [ebind_ok_step (epure_ok _)]
    rw [ebind_ok_step hE₆, ebind_ok_step hE₁₀]
    rw [if_neg (by decide)]
    rw [ebind_ok_step (epure_ok _), ebind_ok_step hE₁₂, epure_ok]
    rw [if_neg (by decide)]
    rw [he₁, hea, he₃, he₄, hes, he₇]
    rw [← extract_eq_take]
    rw [← extract_append (Nat.zero_le _) (show o₁ ≤ o₁₂ by omega)]
    rw [← extract_append (show o₁ ≤ o₂ from ho₂a) (show o₂ ≤ o₁₂ by omega)]
    rw [← extract_append (show o₂ ≤ o₃ by omega) (show o₃ ≤ o₁₂ by omega)]
    rw [← extract_append (show o₃ ≤ o₄ by omega) (show o₄ ≤ o₁₂ by omega)]
    rw [← extract_append (show o₄ ≤ o₅ from ho₅a) (show o₅ ≤ o₁₂ by omega)]
    rw [← extract_append (show o₅ ≤ o₆ from ho₆a) (show o₆ ≤ o₁₂ by omega)]
    rw [← extract_append (show o₆ ≤ o₇ by omega) (show o₇ ≤ o₁₂ by omega)]
    rw [← extract_append (show o₇ ≤ o₁₀ from ho₁₀a) (show o₁₀ ≤ o₁₂ from ho₁₂a)]
    simp only [List.append_assoc, List.append_nil, List.nil_append]
  · rw [if_neg hctx] at h₁
    obtain ⟨ho₁eq, ho₁b, hlt₁, he₁⟩ := greadLE_ok (Nat.zero_le _) h₁
    obtain ⟨ho₂a, ho₂b, hEa⟩ := pgread_prt samplerAccess_srt buf o₁ acc o₂ ho₁b h₂
    injection hEa with hea
    obtain ⟨ho₃eq, ho₃b, hlt₃, he₃⟩ := greadLE_ok ho₂b h₃
    obtain ⟨ho₄eq, ho₄b, hlt₄, he₄⟩ := greadLE_ok ho₃b h₄
    obtain ⟨ho₅a, ho₅b, hEs⟩ := pgread_prt samplerType_srt buf o₄ st o₅ ho₄b h₅
    injection hEs with hes
    obtain ⟨ho₆a, ho₆b, hE₆⟩ := read_string_prt buf o₅ tf o₆ ho₅b h₆
    obtain ⟨ho₇eq, ho₇b, hlt₇, he₇⟩ := greadLE_ok ho₆b h₇
    by_cases hreg : reg < 2 ^ 8
    case neg =>
      rw [if_neg hreg] at h₈
      exact Except.noConfusion h₈
    rw [if_pos hreg, pureP_eq] at h₈
    injection h₈ with h₈'
    injection h₈' with hub0 ho₈
    subst hub0
    subst ho₈
    rw [if_pos hctx] at h₉
    obtain ⟨ho₉eq, ho₉b, hlt₉, he₉⟩ := greadLE_ok ho₇b h₉
    obtain ⟨ho₁₀a, ho₁₀b, hE₁₀⟩ :=
      optional_read_strict_ok read_string_prt buf o₉ dt o₁₀ ho₉b h₁₀
    by_cases hctx20 : ctx = Lib.MinecraftVersion.V1_20_80
    · rw [if_pos hctx20] at h₁₁
      obtain ⟨ho₁₁a, ho₁₁b, hE₁₁⟩ :=
        optional_read_strict_ok read_string_prt buf o₁₀ us o₁₁ ho₁₀b h₁₁
      obtain ⟨ho₁₂a, ho₁₂b, hE₁₂⟩ :=
        optional_read_strict_ok (pgread_prt customTypeInfo_srt) buf o₁₁ cti o₁₂ ho₁₁b h₁₂
      refine ⟨ho₁₂b, ?_⟩
      unfold Lib.SamplerDefinition.write
      dsimp only
      rw [if_neg hctx]
      rw [ebind_ok_step (epure_ok _)]
      rw [ebind_ok_step hE₆, ebind_ok_step hE₁₀]
      rw [if_pos hctx20]
      rw [ebind_ok_step hE₁₁, ebind_ok_step hE₁₂, epure_ok]
      rw [if_pos hctx]
      rw [he₁, hea, he₃, he₄, hes, he₇, he₉]
      rw [← extract_eq_take]
      rw [← extract_append (Nat.zero_le _) (show o₁ ≤ o₁₂ by omega)]
      rw [← extract_append (show o₁ ≤ o₂ from ho₂a) (show o₂ ≤ o₁₂ by omega)]
      rw [← extract_append (show o₂ ≤ o₃ by omega) (show o₃ ≤ o₁₂ by omega)]
      rw [← extract_append (show o₃ ≤ o₄ by omega) (show o₄ ≤ o₁₂ by omega)]
      rw [← extract_append (show o₄ ≤ o₅ from ho₅a) (show o₅ ≤ o₁₂ by omega)]
      rw [← extract_append (show o₅ ≤ o₆ from ho₆a) (show o₆ ≤ o₁₂ by omega)]
      rw [← extract_append (show o₆ ≤ o₇ by omega) (show o₇ ≤ o₁₂ by omega)]
      rw [← extract_append (show o₇ ≤ o₉ by omega) (show o₉ ≤ o₁₂ by omega)]
      rw [← extract_append (show o₉ ≤ o₁₀ from ho₁₀a) (show o₁₀ ≤ o₁₂ by omega)]
      rw [← extract_append (show o₁₀ ≤ o₁₁ from ho₁₁a) (show o₁₁ ≤ o₁₂ from ho₁₂a)]
      simp only [List.append_assoc, List.append_nil, List.nil_append]
    · rw [if_neg hctx20, pureP_eq] at h₁₁
      injection h₁₁ with h₁₁'
      injection h₁₁' with hus ho₁₁
      subst hus
      subst ho₁₁
      obtain ⟨ho₁₂a, ho₁₂b, hE₁₂⟩ :=
        optional_read_strict_ok (pgread_prt customTypeInfo_srt) buf o₁₀ cti o₁₂ ho₁₀b h₁₂
      refine ⟨ho₁₂b, ?_⟩
      unfold Lib.SamplerDefinition.write
      dsimp only
      rw [if_neg hctx]
      rw [ebind_ok_step (epure_ok _)]
      rw [ebind_ok_step hE₆, ebind_ok_step hE₁₀]
      rw [if_neg hctx20]
      rw [ebind_ok_step (epure_ok _), ebind_ok_step hE₁₂, epure_ok]
      rw [if_pos hctx]
      rw [he₁, hea, he₃, he₄, hes, he₇, he₉]
      rw [← extract_eq_take]
      rw [← extract_append (Nat.zero_le _) (show o₁ ≤ o₁₂ by omega)]
      rw [← extract_append (show o₁ ≤ o₂ from ho₂a) (show o₂ ≤ o₁₂ by omega)]
      rw [← extract_append (show o₂ ≤ o₃ by omega) (show o₃ ≤ o₁₂ by omega)]
      rw [← extract_append (show o₃ ≤ o₄ by omega) (show o₄ ≤ o₁₂ by omega)]
      rw [← extract_append (show o₄ ≤ o₅ from ho₅a) (show o₅ ≤ o₁₂ by omega)]
      rw [← extract_append (show o₅ ≤ o₆ from ho₆a) (show o₆ ≤ o₁₂ by omega)]
      rw [← extract_append (show o₆ ≤ o₇ by omega) (show o₇ ≤ o₁₂ by omega)]
      rw [← extract_append (show o₇ ≤ o₉ by omega) (show o₉ ≤ o₁₂ by omega)]
      rw [← extract_append (show o₉ ≤ o₁₀ from ho₁₀a) (show o₁₀ ≤ o₁₂ from ho₁₂a)]
      simp only [List.append_assoc, List.append_nil, List.nil_append]

theorem cmd_srt (ctx : Lib.MinecraftVersion) :
    SRT (Strict.compiledMaterialDefinition ctx)
      (fun m => Lib.CompiledMaterialDefinition.write m ctx) := by
  intro buf v n h
  unfold Strict.compiledMaterialDefinition runP at h
  obtain ⟨mg₁, o₁, h₁, h⟩ := bind_ok h
  obtain ⟨u₁, o₂, hg₁, h⟩ := bind_ok h
  obtain ⟨bn, o₃, h₃, h⟩ := bind_ok h
  obtain ⟨u₂, o₄, hg₂, h⟩ := bind_ok h
  obtain ⟨ver, o₅, h₅, h⟩ := bind_ok h
  obtain ⟨ev, o₆, h₆, h⟩ := bind_ok h
  obtain ⟨u₃, o₇, hg₃, h⟩ := bind_ok h
  obtain ⟨nm, o₈, h₈, h⟩ := bind_ok h
  obtain ⟨pn, o₉, h₉, h⟩ := bind_ok h
  obtain ⟨sdc, o₁₀, h₁₀, h⟩ := bind_ok h
  obtain ⟨sdefs, o₁₁, h₁₁, h⟩ := bind_ok h
  obtain ⟨pfc, o₁₂, h₁₂, h⟩ := bind_ok h
  obtain ⟨pfs, o₁₃, h₁₃, h⟩ := bind_ok h
  obtain ⟨pc, o₁₄, h₁₄, h⟩ := bind_ok h
  obtain ⟨passes, o₁₅, h₁₅, h⟩ := bind_ok h
  obtain ⟨mg₂, o₁₆, h₁₆, h⟩ := bind_ok h
  obtain ⟨u₄, o₁₇, hg₄, h⟩ := bind_ok h
  rw [pureP_eq] at h
  injection h with h'
  injection h' with hv hn
  subst hv
  subst hn
  obtain ⟨hc₁, ho₂⟩ := pguard_ok hg₁
  replace ho₂ := ho₂.symm
  subst ho₂
  obtain ⟨hc₂, ho₄⟩ := pguard_ok hg₂
  replace ho₄ := ho₄.symm
  subst ho₄
  obtain ⟨hc₃, ho₇⟩ := pguard_ok hg₃
  replace ho₇ := ho₇.symm
  subst ho₇
  obtain ⟨hc₄, ho₁₇⟩ := pguard_ok hg₄
  replace ho₁₇ := ho₁₇.symm
  subst ho₁₇
  have hm₁ : mg₁ = Lib.MAGIC := eq_of_beq hc₁
  have hbn : bn = Lib.BANNER := eq_of_beq hc₂
  have hm₂ : mg₂ = Lib.MAGIC := eq_of_beq hc₄
  obtain ⟨ho₁eq, ho₁b, hlt₁, he₁⟩ := greadLE_ok (Nat.zero_le _) h₁
  rw [hm₁] at he₁
  obtain ⟨ho₃a, ho₃b, hE₃⟩ := read_string_prt buf o₁ bn o₃ ho₁b h₃
  rw [hbn] at hE₃
  obtain ⟨ho₅eq, ho₅b, hlt₅, he₅⟩ := greadLE_ok ho₃b h₅
  obtain ⟨ho₆a, ho₆b, hE₆⟩ := pgread_prt encryptionVariant_srt buf o₅ ev o₆ ho₅b h₆
  injection hE₆ with he₆
  obtain ⟨ho₈a, ho₈b, hE₈⟩ := read_string_prt buf o₆ nm o₈ ho₆b h₈
  obtain ⟨ho₉a, ho₉b, hE₉⟩ :=
    optional_read_strict_ok read_string_prt buf o₈ pn o₉ ho₈b h₉
  obtain ⟨ho₁₀eq, ho₁₀b, hlt₁₀, he₁₀⟩ := greadLE_ok ho₉b h₁₀
  obtain ⟨hsdlen, ho₁₁a, ho₁₁b, hT₁⟩ := table_loop_strict_nil_ok read_string_prt
    (pgread_prt (samplerDefinition_srt ctx)) ho₁₀b h₁₁
  obtain ⟨ho₁₂eq, ho₁₂b, hlt₁₂, he₁₂⟩ := greadLE_ok ho₁₁b h₁₂
  obtain ⟨hpflen, ho₁₃a, ho₁₃b, hT₂⟩ := table_loop_strict_nil_ok read_string_prt
    (pgread_prt propertyField_srt) ho₁₂b h₁₃
  obtain ⟨ho₁₄eq, ho₁₄b, hlt₁₄, he₁₄⟩ := greadLE_ok ho₁₃b h₁₄
  obtain ⟨hplen, ho₁₅a, ho₁₅b, hT₃⟩ := table_loop_strict_nil_ok read_string_prt
    (pgread_prt (pass_srt ctx)) ho₁₄b h₁₅
  obtain ⟨ho₁₆eq, ho₁₆b, hlt₁₆, he₁₆⟩ := greadLE_ok ho₁₅b h₁₆
  rw [hm₂] at he₁₆
  refine ⟨ho₁₆b, ?_⟩
  unfold Lib.CompiledMaterialDefinition.write
  dsimp only
  rw [ebind_ok_step hE₃, ebind_ok_step hE₈, ebind_ok_step hE₉]
  rw [ebind_ok_step (u8_try_into_ok (show sdefs.length < 2 ^ 8 by
    rw [hsdlen]; exact lt_of_lt_of_eq hlt₁₀ (by norm_num)))]
  rw [ebind_ok_step hT₁]
  rw [ebind_ok_step (u16_try_into_ok (show pfs.length < 2 ^ 16 by
    rw [hpflen]; exact lt_of_lt_of_eq hlt₁₂ (by norm_num)))]
  rw [ebind_ok_step hT₂]
  rw [ebind_ok_step (u16_try_into_ok (show passes.length < 2 ^ 16 by
    rw [hplen]; exact lt_of_lt_of_eq hlt₁₄ (by norm_num)))]
  rw [ebind_ok_step hT₃, epure_ok]
  rw [hsdlen, hpflen, hplen]
  rw [← extract_eq_take]
  rw [← extract_append (Nat.zero_le _) (show o₁ ≤ o₁₆ by omega)]
  rw [← extract_append (show o₁ ≤ o₃ from ho₃a) (show o₃ ≤ o₁₆ by omega)]
  rw [← extract_append (show o₃ ≤ o₅ by omega) (show o₅ ≤ o₁₆ by omega)]
  rw [← extract_append (show o₅ ≤ o₆ from ho₆a) (show o₆ ≤ o₁₆ by omega)]
  rw [← extract_append (show o₆ ≤ o₈ from ho₈a) (show o₈ ≤ o₁₆ by omega)]
  rw [← extract_append (show o₈ ≤ o₉ from ho₉a) (show o₉ ≤ o₁₆ by omega)]
  rw [← extract_append (show o₉ ≤ o₁₀ by omega) (show o₁₀ ≤ o₁₆ by omega)]
  rw [← extract_append (show o₁₀ ≤ o₁₁ from ho₁₁a) (show o₁₁ ≤ o₁₆ by omega)]
  rw [← extract_append (show o₁₁ ≤ o₁₂ by omega) (show o₁₂ ≤ o₁₆ by omega)]
  rw [← extract_append (show o₁₂ ≤ o₁₃ from ho₁₃a) (show o₁₃ ≤ o₁₆ by omega)]
  rw [← extract_append (show o₁₃ ≤ o₁₄ by omega) (show o₁₄ ≤ o₁₆ by omega)]
  rw [← extract_append (show o₁₄ ≤ o₁₅ from ho₁₅a) (show o₁₅ ≤ o₁₆ by omega)]
  rw [← he₁, ← he₅, ← he₆, ← he₁₀, ← he₁₂, ← he₁₄, ← he₁₆]
  simp only [List.append_assoc]

/-!
Claim theorems.
-/

/-- Claim C9. Emitting a `Pass` whose bitset is empty fails with the
`Compat` refusal for every target schema, and for a non-empty bitset the
refusal branch is never taken: no `Compat` error of any message can come
out of `Pass::write`. -/
theorem c9_empty_bitset_refusal (p : Mod.Pass) (version : Mod.MinecraftVersion) :
    (p.bitset = [] → Mod.Pass.write p version =
      .error (.compat "Bitset string is empty, Try fixing it in the main struct")) ∧
    (p.bitset ≠ [] → ∀ s, Mod.Pass.write p version ≠ .error (.compat s)) := by
  constructor
  · intro hb
    unfold Mod.Pass.write
    rw [hb]
    rfl
  · intro hb
    unfold Mod.Pass.write
    rw [if_neg (by simpa [List.isEmpty_iff] using hb)]
    exact ebind_no_compat (write_string_no_compat _) fun b1 =>
      ebind_no_compat (write_string_no_compat _) fun b2 =>
        ebind_no_compat (optional_write_no_compat _ _
          (fun a => pure_no_compat _)) fun b3 =>
          ebind_no_compat (u16_try_into_no_compat _) fun fl =>
            ebind_no_compat (write_table_no_compat _ _
              (fun k => write_string_no_compat k)
              (fun w => write_string_no_compat w) _) fun b4 =>
              ebind_no_compat (u16_try_into_no_compat _) fun vl =>
                ebind_no_compat (write_list_no_compat _
                  (fun v => mod_variant_write_no_compat v) _) fun b5 =>
                  pure_no_compat _

/-- Witness for `c9_empty_bitset_refusal` at concrete passes. -/
theorem c9_empty_bitset_refusal_witness :
    Mod.Pass.write
      { bitset := [], fallback := [], default_blendmode := Option.none,
        default_flag_values := [], variants := [] } Mod.MinecraftVersion.V1_20_80 =
      .error (.compat "Bitset string is empty, Try fixing it in the main struct") ∧
    ∀ s, Mod.Pass.write
      { bitset := [97], fallback := [], default_blendmode := Option.none,
        default_flag_values := [], variants := [] } Mod.MinecraftVersion.V1_20_80 ≠
      .error (.compat s) :=
  ⟨(c9_empty_bitset_refusal _ _).1 rfl,
   (c9_empty_bitset_refusal _ _).2 (by decide)⟩

/-- Claim C10. The decoder maps any nonzero boolean byte to `true`, while
every boolean byte the emitters produce is exactly 0 or 1 (`optional_write`
presence flags and the `is_supported` byte alike); consequently a file that
stores true as the byte 3 decodes successfully but re-encodes to a file
that differs exactly at that byte, which becomes 1. -/
theorem c10_bool_canonicalization :
    (∀ (b : Byte) (rest : Bytes), b.val ≠ 0 →
      read_bool (b :: rest) 0 = .ok (true, 1)) ∧
    (∀ (rest : Bytes), read_bool ((0 : Byte) :: rest) 0 = .ok (false, 1)) ∧
    (∀ (α : Type) (o : Option α) (f : α → WResult) (bs : Bytes),
      optional_write o f = .ok bs →
      bs.head? = Option.some (if o.isSome then (1 : Byte) else 0)) ∧
    (∀ (v : Mod.Variant) (bs : Bytes), Mod.Variant.write v = .ok bs →
      bs.head? = Option.some (if v.is_supported then (1 : Byte) else 0)) ∧
    Lib.CompiledMaterialDefinition.try_from_ctx Lib.MinecraftVersion.V1_20_80
      parentFlag3File = .ok (parentMaterial, 85) ∧
    Lib.CompiledMaterialDefinition.write parentMaterial
      Lib.MinecraftVersion.V1_20_80 = .ok parentFlag1File ∧
    parentFlag3File.get? 67 = Option.some 3 ∧
    parentFlag1File.get? 67 = Option.some 1 ∧
    parentFlag3File ≠ parentFlag1File := by
  refine ⟨?_, fun rest => rfl, ?_, ?_, by rfl, by rfl, by rfl, by rfl, by decide⟩
  · intro b rest hb
    have : read_bool (b :: rest) 0 = .ok (b.val != 0, 1) := rfl
    rw [this]
    simp [hb]
  · intro α o f bs h
    cases o with
    | none =>
      have : bs = [(0 : Byte)] := by
        simpa [optional_write, pure, Except.pure] using h.symm
      rw [this]
      rfl
    | some v =>
      obtain ⟨a, ha, h2⟩ := ebind_ok h
      have : bs = (1 : Byte) :: a := by
        simpa [pure, Except.pure] using h2.symm
      rw [this]
      rfl
  · intro v bs h
    unfold Mod.Variant.write at h
    obtain ⟨fl, hfl, h⟩ := ebind_ok h
    obtain ⟨sl, hsl, h⟩ := ebind_ok h
    obtain ⟨bf, hbf, h⟩ := ebind_ok h
    obtain ⟨bsc, hbsc, h⟩ := ebind_ok h
    have : bs = leBytes 1 (if v.is_supported then 1 else 0) ++
        (leBytes 2 fl ++ leBytes 2 sl ++ bf ++ bsc) := by
      simpa [pure, Except.pure, List.append_assoc] using h.symm
    rw [this]
    cases v.is_supported <;> rfl

/-- Witness for `c10_bool_canonicalization` at the byte 2. -/
theorem c10_bool_canonicalization_witness :
    read_bool [(2 : Byte)] 0 = .ok (true, 1) :=
  c10_bool_canonicalization.1 2 [] (by decide)

/-- Claim C1 (counterexample). A file whose ordered tables are all empty —
so the insertion-order proviso holds vacuously — decodes successfully, yet
re-encoding does not reproduce it byte-for-byte: its "has parent" boolean
is stored as 2, and the emitter writes 1. -/
theorem c1_roundtrip_counterexample :
    Lib.CompiledMaterialDefinition.try_from_ctx Lib.MinecraftVersion.V1_20_80
      parentFlag2File = .ok (parentMaterial, 85) ∧
    Lib.CompiledMaterialDefinition.write parentMaterial
      Lib.MinecraftVersion.V1_20_80 = .ok parentFlag1File ∧
    parentFlag1File ≠ parentFlag2File :=
  ⟨by rfl, by rfl, by decide⟩

/-- Claim C2 (counterexample). A well-formed file carrying the `KYPR`
encryption tag is not decrypted and parsed — the decoder stops right at the
tag with "Not decrypting encrypted material". -/
theorem c2_kypr_rejected_counterexample :
    Lib.CompiledMaterialDefinition.try_from_ctx Lib.MinecraftVersion.V1_20_80
      kyprFile = .error (.badInput 63 "Not decrypting encrypted material") := by
  decide

/-- Claim C2 (amended). The tag parser accepts exactly the `NONE`, `SMPL`
and `KYPR` u32 tags and rejects unknown ones, but the top-level decoder
then refuses everything except `NONE`: every successful decode carries the
`NONE` variant. -/
theorem c2_only_none_accepted :
    (∀ (ctx : Lib.MinecraftVersion) (buffer : Bytes)
      (m : Lib.CompiledMaterialDefinition) (n : Nat),
      Lib.CompiledMaterialDefinition.try_from_ctx ctx buffer = .ok (m, n) →
      m.encryption_variant = Lib.EncryptionVariant.None) ∧
    Lib.EncryptionVariant.try_from_ctx noneTag =
      .ok (Lib.EncryptionVariant.None, 4) ∧
    Lib.EncryptionVariant.try_from_ctx (leBytes 4 0x534D504C) =
      .ok (Lib.EncryptionVariant.SimplePassphrase, 4) ∧
    Lib.EncryptionVariant.try_from_ctx kyprTag =
      .ok (Lib.EncryptionVariant.KeyPair, 4) ∧
    Lib.EncryptionVariant.try_from_ctx [0, 0, 0, 0] =
      .error (.custom "Invalid EnctyptionVariant: 0") := by
  refine ⟨?_, rfl, rfl, rfl, rfl⟩
  intro ctx buffer m n h
  unfold Lib.CompiledMaterialDefinition.try_from_ctx runP at h
  obtain ⟨magic, o1, h1, h⟩ := bind_ok h
  obtain ⟨u1, o2, hg1, h⟩ := bind_ok h
  obtain ⟨banner, o3, h3, h⟩ := bind_ok h
  obtain ⟨u2, o4, hg2, h⟩ := bind_ok h
  obtain ⟨ver, o5, h5, h⟩ := bind_ok h
  obtain ⟨ev, o6, h6, h⟩ := bind_ok h
  obtain ⟨u3, o7, hg3, h⟩ := bind_ok h
  obtain ⟨nm, o8, h8, h⟩ := bind_ok h
  obtain ⟨par, o9, h9, h⟩ := bind_ok h
  obtain ⟨sdc, o10, h10, h⟩ := bind_ok h
  obtain ⟨sds, o11, h11, h⟩ := bind_ok h
  obtain ⟨pfc, o12, h12, h⟩ := bind_ok h
  obtain ⟨pfs, o13, h13, h⟩ := bind_ok h
  obtain ⟨pc, o14, h14, h⟩ := bind_ok h
  obtain ⟨ps, o15, h15, h⟩ := bind_ok h
  obtain ⟨e8, o16, h16, h⟩ := bind_ok h
  simp only [pureP_eq] at h
  injection h with h'
  injection h' with hm hn
  obtain ⟨hev, -⟩ := pguard_ok hg3
  have hevn : ev = Lib.EncryptionVariant.None := by simpa using hev
  rw [← hm, hevn]

/-- Claim C4 (counterexample). A file whose trailing 64-bit value is zero —
not the magic — still decodes successfully: the decoder reads the closing
quadword but never compares it. -/
theorem c4_closing_magic_ignored_counterexample :
    Lib.CompiledMaterialDefinition.try_from_ctx Lib.MinecraftVersion.V1_20_80
      (emptyBody ++ [0, 0, 0, 0, 0, 0, 0, 0]) = .ok (emptyMaterial, 81) := by
  rfl

set_option maxHeartbeats 4000000 in
/-- Claim C4 (amended). After the pass table the decoder consumes eight more
bytes — their value is completely unconstrained: whatever the closing
quadword holds, the decode succeeds with the same tree. (Fewer than eight
remaining bytes do fail, since the read itself is bounds-checked.) -/
theorem c4_closing_magic_any (b0 b1 b2 b3 b4 b5 b6 b7 : Byte) :
    Lib.CompiledMaterialDefinition.try_from_ctx Lib.MinecraftVersion.V1_20_80
      (emptyBody ++ [b0, b1, b2, b3, b4, b5, b6, b7]) =
    .ok (emptyMaterial, 81) := rfl

/-- Witness for `c4_closing_magic_any` at a concrete closing quadword. -/
theorem c4_closing_magic_any_witness :
    Lib.CompiledMaterialDefinition.try_from_ctx Lib.MinecraftVersion.V1_20_80
      (emptyBody ++ [1, 2, 3, 4, 5, 6, 7, 8]) = .ok (emptyMaterial, 81) :=
  c4_closing_magic_any 1 2 3 4 5 6 7 8

/-- Claim C3 (code bug witness). The decoder's shift law holds — on-disk
byte 5 at schema 1.19.60 parses as `TypeStructuredBuffer` (canonical
ordinal 6) and byte 6 as `TypeRawBuffer` (ordinal 7) — and
`TypeSamplerCubeArray` is refused off 1.21.20 while 1.21.20 round-trips the
plain ordinal; but the encoder breaks the claimed inverse: at 1.19.60 it
emits 6 for `TypeStructuredBuffer` (ordinal−1 is 5) and 5 for
`TypeRawBuffer` (ordinal−1 is 6), so decode-then-encode swaps the two and
`TypeAccelerationStructure` collides with `TypeStructuredBuffer` on 6. -/
theorem c3_samplertype_shift_mismatch :
    Mod.SamplerType.try_from_ctx Mod.MinecraftVersion.V1_19_60 [5] =
      .ok (Mod.SamplerType.TypeStructuredBuffer, 1) ∧
    Mod.SamplerType.try_from_ctx Mod.MinecraftVersion.V1_19_60 [6] =
      .ok (Mod.SamplerType.TypeRawBuffer, 1) ∧
    Mod.SamplerType.try_from_ctx Mod.MinecraftVersion.V1_21_20 [5] =
      .ok (Mod.SamplerType.TypeSamplerCubeArray, 1) ∧
    Mod.SamplerType.to_u8 Mod.SamplerType.TypeSamplerCubeArray
      Mod.MinecraftVersion.V1_19_60 = .error (.compat
      "Sampler type is (Sampler Cube Array) ,which is incompatible with versions before 1.21.20") ∧
    Mod.SamplerType.to_u8 Mod.SamplerType.TypeSamplerCubeArray
      Mod.MinecraftVersion.V1_21_20 = .ok 5 ∧
    Mod.SamplerType.to_u8 Mod.SamplerType.TypeStructuredBuffer
      Mod.MinecraftVersion.V1_19_60 = .ok 6 ∧
    Mod.SamplerType.to_u8 Mod.SamplerType.TypeRawBuffer
      Mod.MinecraftVersion.V1_19_60 = .ok 5 ∧
    Mod.SamplerType.to_u8 Mod.SamplerType.TypeAccelerationStructure
      Mod.MinecraftVersion.V1_19_60 = .ok 6 ∧
    Mod.SamplerType.ordinal Mod.SamplerType.TypeStructuredBuffer - 1 = 5 ∧
    Mod.SamplerType.ordinal Mod.SamplerType.TypeRawBuffer - 1 = 6 :=
  ⟨rfl, rfl, rfl, rfl, rfl, rfl, rfl, rfl, rfl, rfl⟩

/-- Claim C5 (code bug witness). On schema 1.18.30 the pass decoder reads a
single byte — not a u32 — and then rewinds the cursor by four, underflowing
it from 1; with the low byte 15 (bitset present per the claim) and with a
different low byte alike, the decode panics instead of re-reading in place
or advancing one byte. -/
theorem c5_pass_peek_underflow :
    Mod.Pass.try_from_ctx Mod.MinecraftVersion.V1_18_30 [15, 0, 0, 0] =
      .error (.panicked "attempt to subtract with overflow") ∧
    Mod.Pass.try_from_ctx Mod.MinecraftVersion.V1_18_30 [0, 0, 0, 0] =
      .error (.panicked "attempt to subtract with overflow") :=
  ⟨rfl, rfl⟩

/-- Claim C6 (code bug witness). The decoder reads the u32 count (and the
has-data byte) even for `External` — seven bytes consumed — while the
encoder emits neither, two bytes only; the fixed payloads are 16, 36 and 64
bytes on both sides for Vec4, Mat3 and Mat4, shown by exact byte-level
round-trips of one value of each type. -/
theorem c6_external_count_asymmetry :
    Lib.PropertyField.try_from_ctx [5, 0, 7, 0, 0, 0, 1] =
      .ok ({ field_type := Lib.PropertyType.External, num := 7,
             vector_data := Option.none, matrix_data := Option.none }, 7) ∧
    Lib.PropertyField.write
      { field_type := Lib.PropertyType.External, num := 7,
        vector_data := Option.none, matrix_data := Option.none } = .ok [5, 0] ∧
    Lib.PropertyField.try_from_ctx ([2, 0, 1, 0, 0, 0, 1] ++ List.replicate 16 (0 : Byte)) =
      .ok ({ field_type := Lib.PropertyType.Vec4, num := 1,
             vector_data := Option.some (List.replicate 16 (0 : Byte)),
             matrix_data := Option.none }, 23) ∧
    Lib.PropertyField.write
      { field_type := Lib.PropertyType.Vec4, num := 1,
        vector_data := Option.some (List.replicate 16 (0 : Byte)),
        matrix_data := Option.none } =
      .ok ([2, 0, 1, 0, 0, 0, 1] ++ List.replicate 16 (0 : Byte)) ∧
    Lib.PropertyField.try_from_ctx ([3, 0, 1, 0, 0, 0, 1] ++ List.replicate 36 (0 : Byte)) =
      .ok ({ field_type := Lib.PropertyType.Mat3, num := 1,
             vector_data := Option.none,
             matrix_data := Option.some (List.replicate 36 (0 : Byte)) }, 43) ∧
    Lib.PropertyField.try_from_ctx ([4, 0, 1, 0, 0, 0, 1] ++ List.replicate 64 (0 : Byte)) =
      .ok ({ field_type := Lib.PropertyType.Mat4, num := 1,
             vector_data := Option.none,
             matrix_data := Option.some (List.replicate 64 (0 : Byte)) }, 71) :=
  ⟨rfl, rfl, by decide, by decide, by decide, by decide⟩

/-- Claim C7 (code bug witness). A pass whose single variant fails to parse
decodes successfully with the variant silently dropped (instead of aborting
with the element's error), and a bgfx shader whose single uniform fails to
parse decodes successfully with an empty uniform table, the offending bytes
re-read as the code section. -/
theorem c7_element_failure_swallowed :
    Mod.Pass.try_from_ctx Mod.MinecraftVersion.V1_20_80 swallowPassBytes =
      .ok (swallowPass, 14) ∧
    Mod.BgfxShader.try_from_ctx swallowBgfxBytes = .ok (swallowBgfx, 35) :=
  ⟨by decide, by decide⟩

/-- Claim C8 (code bug witness). Three decode paths panic on short input
instead of returning an error: `PlatformShaderStage::try_from_ctx` unwraps
its reads, and the fixed-size property-field payload and the bgfx data of
`ShaderCode` are taken with panicking slice indexing. -/
theorem c8_decode_panics :
    Mod.PlatformShaderStage.try_from_ctx [] =
      .error (.panicked "called Result::unwrap() on an Err value") ∧
    Lib.PropertyField.try_from_ctx [2, 0, 1, 0, 0, 0, 1] =
      .error (.panicked "range end index out of range for slice") ∧
    Mod.ShaderCode.try_from_ctx [0, 0, 0, 0, 0, 0, 0, 0, 0, 0, 5, 0, 0, 0] =
      .error (.panicked "range end index out of range for slice") :=
  ⟨rfl, rfl, rfl⟩

/-- Claim C1 (amended): round-trip on the canonical subset. Whenever the
strict decoder accepts a file — the canonical forms: booleans stored as
0/1, distinct table keys, no `External` property fields, every counted
variant element parses, non-empty pass bitsets, closing magic present —
the lenient decoder of src/src/lib.rs returns the very same tree at the
very same offset, and re-encoding that tree under the same schema
reproduces the consumed bytes exactly, byte for byte. -/
theorem c1_roundtrip_canonical (ctx : Lib.MinecraftVersion) (F : Bytes)
    (v : Lib.CompiledMaterialDefinition) (n : Nat)
    (h : Strict.compiledMaterialDefinition ctx F = .ok (v, n)) :
    Lib.CompiledMaterialDefinition.try_from_ctx ctx F = .ok (v, n) ∧
    n ≤ F.length ∧
    Lib.CompiledMaterialDefinition.write v ctx = .ok (F.take n) :=
  ⟨cmd_refine ctx F (v, n) h, (cmd_srt ctx F v n h).1, (cmd_srt ctx F v n h).2⟩

set_option maxHeartbeats 4000000 in
/-- Witness for `c1_roundtrip_canonical`: the minimal empty material file
is strictly decodable, and the theorem instantiates on it. -/
theorem c1_roundtrip_canonical_witness :
    Lib.CompiledMaterialDefinition.try_from_ctx Lib.MinecraftVersion.V1_20_80
      emptyFile = .ok (emptyMaterial, 81) ∧
    81 ≤ emptyFile.length ∧
    Lib.CompiledMaterialDefinition.write emptyMaterial
      Lib.MinecraftVersion.V1_20_80 = .ok (emptyFile.take 81) :=
  c1_roundtrip_canonical Lib.MinecraftVersion.V1_20_80 emptyFile emptyMaterial 81
    (by rfl)

end Materialbin
